import Mathlib

/-!
Verification of the sloppy DHT core against its specification.

The Rust sources are shallowly embedded as Lean definitions:

* `Sloppy.routing` models the `routing` module that is inlined in
  `src/lib.rs` (remote-node records, the cloudburst-backed table and the
  receive/timeout merge functions).
* `Sloppy.MsgBuffer` models `src/msg_buffer.rs`.
* `Sloppy.Legacy` models `src/routing.rs` (the earlier revision of the
  routing table, whose `Bucket::split` is the splitting code present in
  the repository).

Machine integers are modelled as `Fin` of the appropriate power of two
(`u16` transaction ids, 160-bit node ids, bytes) and `i8` karma counters
as `Int` with explicit saturation.  Instants are natural numbers and
durations are naturals added to them; fifteen minutes is `900` units.
External collaborators that are not part of the repository (the
cloudburst `Table`, `Bucket` and `Transactions` containers, the missing
`find_node_op.rs`, and the missing transaction `Manager` of the
`msg_buffer.rs` revision) are modelled from the specification text and
are marked as such in their doc comments.
-/

namespace Sloppy

/-- Number of bits in a DHT node identifier. -/
def idBits : Nat := 160

/-- Number of distinct 160-bit node identifiers. -/
def idSize : Nat := 2 ^ idBits

theorem idSize_pos : 0 < idSize := Nat.pos_pow_of_pos idBits (by decide)

instance : NeZero idSize := ⟨idSize_pos.ne'⟩

/-- A 160-bit node identifier.  Ordering is numeric, which coincides with
the lexicographic ordering of the big-endian byte representation. -/
abbrev NodeId : Type := Fin idSize

/-- Smallest identifier, `Id::min()`. -/
def NodeId.min : NodeId := ⟨0, idSize_pos⟩

/-- Largest identifier, `Id::max()`. -/
def NodeId.max : NodeId := ⟨idSize - 1, Nat.sub_lt idSize_pos (by decide)⟩

/-- Modelled from the spec: `middle` returns the arithmetic midpoint of two
identifiers in unsigned 160-bit arithmetic (`Id::middle` lives in the
external id module; the spec describes it as the arithmetic midpoint). -/
def NodeId.middle (a b : NodeId) : NodeId :=
  ⟨(a.val + b.val) / 2, by
    have ha : a.val < idSize := a.isLt
    have hb : b.val < idSize := b.isLt
    omega⟩

/-- Modelled from the spec: `next()` returns the identifier plus one,
saturating at `Id::max()`. -/
def NodeId.next (a : NodeId) : NodeId :=
  if h : a.val + 1 < idSize then ⟨a.val + 1, h⟩ else NodeId.max

/-- XOR distance between two identifiers (`Id::distance`). -/
def NodeId.distance (a b : NodeId) : Nat := a.val ^^^ b.val

/-- A 16-bit KRPC transaction identifier (`transaction::Id`). -/
abbrev TxId := Fin 65536

/-- A byte. -/
abbrev Byte := Fin 256

/-- Network address paired with a node id (`AddrId`). -/
structure AddrId (Addr : Type) where
  addr : Addr
  id : NodeId
deriving DecidableEq

/-- Network address paired with an optional node id (`AddrOptId`). -/
structure AddrOptId (Addr : Type) where
  addr : Addr
  id : Option NodeId
deriving DecidableEq

/-- Message type of a KRPC message (cloudburst `Ty`): the `y` field is
`q`, `r`, `e`, or some other byte string. -/
inductive Ty where
  | query
  | response
  | error
  | unknown (s : List Byte)
deriving DecidableEq

namespace routing

/-- Fifteen minutes, the `TIMEOUT_INTERVAL` of `routing::Node`. -/
def TIMEOUT_INTERVAL : Nat := 15 * 60

/-- Liveness classification of a remote node (`routing::NodeState`). -/
inductive NodeState where
  | good
  | questionable
  | bad
deriving DecidableEq

/-- Remote-node record of the inline `routing` module in `src/lib.rs`
(`routing::Node`): address and id plus liveness metadata.  The karma
counter is an `i8` in the source and is modelled as an `Int` with
explicit saturation at the `i8` bounds. -/
structure Node (Addr : Type) where
  addr_id : AddrId Addr
  karma : Int
  next_response_deadline : Nat
  next_query_deadline : Nat
  ping_tx_id : Option TxId
deriving DecidableEq

/-- Constructor `routing::Node::new`: karma starts at zero, both deadlines
start at `now + TIMEOUT_INTERVAL`, no ping outstanding. -/
def Node.new {Addr : Type} (addr_id : AddrId Addr) (now : Nat) : Node Addr :=
  { addr_id := addr_id
    karma := 0
    next_response_deadline := now + TIMEOUT_INTERVAL
    next_query_deadline := now + TIMEOUT_INTERVAL
    ping_tx_id := none }

/-- Timeout of a record (`routing::Node::timeout`): the later of the two
deadlines. -/
def Node.timeout {Addr : Type} (n : Node Addr) : Nat :=
  Max.max n.next_response_deadline n.next_query_deadline

/-- Derived liveness state (`routing::Node::state_with_now`). -/
def Node.state_with_now {Addr : Type} (n : Node Addr) (now : Nat) : NodeState :=
  if now < n.next_response_deadline then .good
  else if now < n.next_query_deadline then .good
  else if n.karma < -2 then .bad
  else .questionable

/-- Clearing of a matching in-flight ping: the repeated
`if let Some(tx_id) = tx_id { if let Some(ping_tx_id) = ... }` fragment of
`routing::Node::on_msg_received` and `on_resp_timeout`. -/
def Node.clearMatchingPing {Addr : Type} (n : Node Addr) (tx_id : Option TxId) :
    Node Addr :=
  match tx_id, n.ping_tx_id with
  | some t, some p => if p = t then { n with ping_tx_id := none } else n
  | _, _ => n

/-- Saturating increment of an `i8` karma counter (`karma.saturating_add(1)`). -/
def satAdd1 (k : Int) : Int := Min.min (k + 1) 127

/-- Saturating decrement of an `i8` karma counter (`karma.saturating_sub(1)`). -/
def satSub1 (k : Int) : Int := Max.max (k - 1) (-128)

/-- Receive callback of a remote-node record
(`routing::Node::on_msg_received`). -/
def Node.on_msg_received {Addr : Type} (n : Node Addr) (kind : Ty)
    (tx_id : Option TxId) (now : Nat) : Node Addr :=
  match kind with
  | .response =>
    let n := n.clearMatchingPing tx_id
    let k := satAdd1 n.karma
    { n with
      next_response_deadline := now + TIMEOUT_INTERVAL
      karma := if k > 3 then 3 else k }
  | .query =>
    { n with next_query_deadline := now + TIMEOUT_INTERVAL }
  | .error =>
    let n := n.clearMatchingPing tx_id
    { n with
      next_response_deadline := now + TIMEOUT_INTERVAL
      karma := satSub1 n.karma }
  | .unknown _ =>
    let n := n.clearMatchingPing tx_id
    { n with karma := satSub1 n.karma }

/-- Timeout callback of a remote-node record
(`routing::Node::on_resp_timeout`): karma decreases saturating and a
matching ping is cleared. -/
def Node.on_resp_timeout {Addr : Type} (n : Node Addr) (tx_id : TxId) :
    Node Addr :=
  let n := { n with karma := satSub1 n.karma }
  n.clearMatchingPing (some tx_id)

end routing

/-- Replacement of the first list element satisfying `p` by its image
under `f`; models mutation through `iter_mut().find(p)`. -/
def updateFirst {α : Type} (p : α → Bool) (f : α → α) : List α → List α
  | [] => []
  | x :: xs => if p x then f x :: xs else x :: updateFirst p f xs

/-- Capacity of a bucket, `MAX_BUCKET_SIZE`. -/
def MAX_BUCKET_SIZE : Nat := 8

/-- The bucket-refresh interval of `src/lib.rs`, `BUCKET_REFRESH_INTERVAL`
(fifteen minutes). -/
def BUCKET_REFRESH_INTERVAL : Nat := 15 * 60

/-- The pivot re-lookup interval of `src/lib.rs`, `FIND_LOCAL_ID_INTERVAL`
(fifteen minutes). -/
def FIND_LOCAL_ID_INTERVAL : Nat := 15 * 60

/-- Modelled from the spec: the cloudburst `Bucket` used by `src/lib.rs` —
an inclusive id range, a bounded list of remote-node records and a refresh
deadline.  The spec describes it as an inclusive `Id` range, a bounded
sequence of records of capacity `MAX_BUCKET_SIZE` and a
`refresh_deadline`. -/
structure CbBucket (Addr : Type) where
  lo : NodeId
  hi : NodeId
  nodes : List (routing.Node Addr)
  refresh_deadline : Nat
deriving DecidableEq

namespace CbBucket

/-- Containment of an id in the bucket's inclusive range
(`bucket.range().contains(id)`). -/
def containsId {Addr : Type} (b : CbBucket Addr) (i : NodeId) : Bool :=
  decide (b.lo ≤ i) && decide (i ≤ b.hi)

/-- Number of records in the bucket (`Bucket::len`). -/
def len {Addr : Type} (b : CbBucket Addr) : Nat := b.nodes.length

/-- Modelled from the spec: `Bucket::insert` appends a fresh record (step 4
of the on-receive merge: "append a fresh record"). -/
def insert {Addr : Type} (b : CbBucket Addr) (n : routing.Node Addr) :
    CbBucket Addr :=
  { b with nodes := b.nodes ++ [n] }

/-- Setter `Bucket::set_refresh_deadline`. -/
def set_refresh_deadline {Addr : Type} (b : CbBucket Addr) (d : Nat) :
    CbBucket Addr :=
  { b with refresh_deadline := d }

/-- Timeout of a bucket: the `MyBucket::timeout` implementation of
`src/lib.rs` — the minimum of the refresh deadline and the earliest
timeout of a node without an in-flight ping, or the refresh deadline when
every node has a ping in flight. -/
def timeoutB {Addr : Type} (b : CbBucket Addr) : Nat :=
  match ((b.nodes.filter (fun n => n.ping_tx_id = none)).map
      routing.Node.timeout).min? with
  | some t => Min.min b.refresh_deadline t
  | none => b.refresh_deadline

end CbBucket

/-- Modelled from the spec: the cloudburst `Table` used by `src/lib.rs` —
an ordered sequence of buckets partitioning the id space, plus the local
pivot.  Consistently with `src/routing.rs`, the bucket containing the
pivot is kept last so that `split_last` always splits the pivot bucket. -/
structure CbTable (Addr : Type) where
  pivot : NodeId
  buckets : List (CbBucket Addr)
deriving DecidableEq

namespace CbTable

/-- Modelled from the spec: `Table::new(local_id, now)` starts with a
single bucket covering the whole id space. -/
def new {Addr : Type} (local_id : NodeId) (now : Nat) : CbTable Addr :=
  { pivot := local_id
    buckets := [{ lo := NodeId.min, hi := NodeId.max, nodes := []
                  refresh_deadline := now + BUCKET_REFRESH_INTERVAL }] }

/-- Index of the bucket whose range contains `i` (`Table::find_mut`). -/
def findIdxOf {Addr : Type} (t : CbTable Addr) (i : NodeId) : Nat :=
  t.buckets.findIdx (fun b => b.containsId i)

/-- Bucket whose range contains `i`, when it exists. -/
def findBucket {Addr : Type} (t : CbTable Addr) (i : NodeId) :
    Option (CbBucket Addr) :=
  t.buckets.get? (t.findIdxOf i)

/-- Replacement of the bucket whose range contains `i` by its image under
`f` (mutation through `Table::find_mut`). -/
def modifyBucketAt {Addr : Type} (t : CbTable Addr) (i : NodeId)
    (f : CbBucket Addr → CbBucket Addr) : CbTable Addr :=
  { t with buckets := t.buckets.modify f (t.findIdxOf i) }

/-- Modelled from the spec: `Table::split_last` pops the last bucket with
range `[lo, hi]` and replaces it by the halves `[lo, mid]` and
`[mid.next(), hi]` (where `mid` is the midpoint of the range), every
record moving to the half whose range contains its id; the half holding
the pivot is pushed last.  This mirrors `Bucket::split` and the push order
of `Table::on_msg_received` in `src/routing.rs`, which the spec adopts. -/
def split_last {Addr : Type} (t : CbTable Addr) : CbTable Addr :=
  match t.buckets.getLast? with
  | none => t
  | some b =>
    let mid := NodeId.middle b.hi b.lo
    let lower : CbBucket Addr :=
      { lo := b.lo, hi := mid
        nodes := b.nodes.filter (fun n =>
          decide (b.lo ≤ n.addr_id.id) && decide (n.addr_id.id ≤ mid))
        refresh_deadline := b.refresh_deadline }
    let upper : CbBucket Addr :=
      { lo := mid.next, hi := b.hi
        nodes := b.nodes.filter (fun n =>
          !(decide (b.lo ≤ n.addr_id.id) && decide (n.addr_id.id ≤ mid)))
        refresh_deadline := b.refresh_deadline }
    if lower.containsId t.pivot then
      { t with buckets := t.buckets.dropLast ++ [upper, lower] }
    else
      { t with buckets := t.buckets.dropLast ++ [lower, upper] }

/-- Timeout of the routing table: the `MyTable::timeout` implementation of
`src/lib.rs` — the minimum bucket timeout. -/
def timeoutT {Addr : Type} (t : CbTable Addr) : Option Nat :=
  (t.buckets.map CbBucket.timeoutB).min?

end CbTable

namespace routing

/-- Fuel for the split loop of `routing::on_recv`.  Every iteration splits
the pivot bucket, halving its range, so at most `idBits + 1` iterations
can make progress; the fuel is never exhausted on states whose pivot
bucket can stop being full. -/
def SPLIT_FUEL : Nat := idBits + 1

/-- The `while bucket_len == MAX_BUCKET_SIZE` loop of `routing::on_recv`
in `src/lib.rs`: split the last bucket, re-find the bucket of the id and
stop as soon as that bucket is not full or no longer contains the
pivot. -/
def splitLoop {Addr : Type} : Nat → CbTable Addr → NodeId → CbTable Addr
  | 0, t, _ => t
  | fuel + 1, t, i =>
    match t.findBucket i with
    | none => t
    | some b =>
      if b.len = MAX_BUCKET_SIZE then
        let t2 := t.split_last
        match t2.findBucket i with
        | none => t2
        | some b2 =>
          if b2.containsId t2.pivot then splitLoop fuel t2 i else t2
      else t

/-- On-receive merge of the routing table (`routing::on_recv` in
`src/lib.rs`): update an existing record in place, otherwise split the
pivot bucket while it is full, then append the new record if the bucket
has room, otherwise drop `Bad` records and append if that opened a
slot. -/
def on_recv {Addr : Type} [DecidableEq Addr] (t : CbTable Addr)
    (addr_id : AddrId Addr) (kind : Ty) (tx_id : Option TxId)
    (refresh_bucket_deadline now : Nat) : CbTable Addr :=
  match t.findBucket addr_id.id with
  | none => t
  | some b =>
    if b.nodes.any (fun n => n.addr_id = addr_id) then
      t.modifyBucketAt addr_id.id (fun b =>
        { b with nodes := (updateFirst (fun n => n.addr_id = addr_id)
            (fun n => n.on_msg_received kind tx_id now) b.nodes) })
    else
      let t1 :=
        if b.containsId t.pivot then splitLoop SPLIT_FUEL t addr_id.id else t
      match t1.findBucket addr_id.id with
      | none => t1
      | some b1 =>
        if b1.len < MAX_BUCKET_SIZE then
          t1.modifyBucketAt addr_id.id (fun b =>
            ((b.insert (Node.new addr_id now)).set_refresh_deadline
              refresh_bucket_deadline))
        else
          t1.modifyBucketAt addr_id.id (fun b =>
            let kept := b.nodes.filter (fun n =>
              match n.state_with_now now with
              | .good | .questionable => true
              | .bad => false)
            if kept.length < MAX_BUCKET_SIZE then
              { b with nodes := kept ++ [Node.new addr_id now]
                       refresh_deadline := refresh_bucket_deadline }
            else
              { b with nodes := kept })

/-- Timeout merge of the routing table (`routing::on_timeout` in
`src/lib.rs`): apply `on_resp_timeout` to the record matching the
address-id pair, when present. -/
def on_timeout {Addr : Type} [DecidableEq Addr] (t : CbTable Addr)
    (addr_id : AddrId Addr) (tx_id : TxId) : CbTable Addr :=
  t.modifyBucketAt addr_id.id (fun b =>
    { b with nodes := (updateFirst (fun n => n.addr_id = addr_id)
        (fun n => n.on_resp_timeout tx_id) b.nodes) })

/-- Neighbor search (`routing::find_neighbors` in `src/lib.rs`): collect
the records of every bucket in order and stably sort them by XOR distance
of their id to the target (`sort_by_key` is a stable sort).  The `now`
parameter is unused by the source body and kept for signature
fidelity. -/
def find_neighbors {Addr : Type} (t : CbTable Addr) (id : NodeId)
    (_now : Nat) : List (AddrId Addr) :=
  ((t.buckets.map CbBucket.nodes).flatten.map Node.addr_id).mergeSort
    (fun a b => decide (a.id.distance id ≤ b.id.distance id))

end routing

/-- A bencoded value (`bt_bencode::Value`), the post-decode form of every
KRPC datagram: integers, byte strings, lists and dictionaries with
byte-string keys.  The bencode wire codec itself is an external
collaborator; the core is modelled from the decoded value onward. -/
inductive BValue where
  | int (i : Int)
  | bytes (s : List Byte)
  | list (l : List BValue)
  | dict (d : List (List Byte × BValue))

namespace BValue

/-- View of a value as a dictionary (`Value::as_dict`). -/
def as_dict : BValue → Option (List (List Byte × BValue))
  | .dict d => some d
  | _ => none

/-- View of a value as a byte string (`Value::as_byte_str`). -/
def as_byte_str : BValue → Option (List Byte)
  | .bytes s => some s
  | _ => none

/-- Lookup of a key in a bencoded dictionary (`dict.get(key)`). -/
def dictGet (d : List (List Byte × BValue)) (key : List Byte) :
    Option BValue :=
  (d.find? (fun kv => kv.1 = key)).map (fun kv => kv.2)

/-- The `t` field of a message as a byte string (`Msg::tx_id`). -/
def tx_id_bytes (v : BValue) : Option (List Byte) :=
  (v.as_dict.bind (fun d => dictGet d [116])).bind as_byte_str

/-- Modelled from the spec: the message type of a value (cloudburst
`Msg::ty`), dispatching on the `y` field: `q`, `r`, `e`, any other byte
string is an unknown type, and a missing or non-byte-string `y` yields
none (the spec's `UnknownMsgType` error case). -/
def ty (v : BValue) : Option Ty :=
  match (v.as_dict.bind (fun d => dictGet d [121])).bind as_byte_str with
  | none => none
  | some s =>
    if s = [113] then some .query
    else if s = [114] then some .response
    else if s = [101] then some .error
    else some (.unknown s)

end BValue

/-- Big-endian accumulation of a byte string into a natural number, the
value of a 20-byte node id. -/
def bytesToNat (l : List Byte) : Nat :=
  l.foldl (fun acc b => acc * 256 + b.val) 0

theorem bytesToNat_aux_lt (l : List Byte) :
    ∀ acc : Nat, l.foldl (fun acc b => acc * 256 + b.val) acc <
      (acc + 1) * 256 ^ l.length := by
  induction l with
  | nil => intro acc; simp
  | cons b bs ih =>
    intro acc
    have h1 := ih (acc * 256 + b.val)
    have hb : b.val < 256 := b.isLt
    calc List.foldl (fun acc b => acc * 256 + b.val) (acc * 256 + b.val) bs
        < (acc * 256 + b.val + 1) * 256 ^ bs.length := h1
      _ ≤ ((acc + 1) * 256) * 256 ^ bs.length := by
          have : acc * 256 + b.val + 1 ≤ (acc + 1) * 256 := by nlinarith
          exact Nat.mul_le_mul_right _ this
      _ = (acc + 1) * 256 ^ (bs.length + 1) := by ring
      _ = (acc + 1) * 256 ^ (b :: bs).length := by simp

theorem bytesToNat_lt (l : List Byte) (h : l.length = 20) :
    bytesToNat l < idSize := by
  have h1 := bytesToNat_aux_lt l 0
  rw [h] at h1
  have h2 : (0 + 1) * 256 ^ 20 = idSize := by
    show 1 * 256 ^ 20 = 2 ^ 160
    norm_num
  exact h2 ▸ h1

/-- Parse of a 20-byte big-endian node id (`Id::try_from(&[u8])`): succeeds
exactly on byte strings of length 20. -/
def idFromBytes (l : List Byte) : Option NodeId :=
  if h : l.length = 20 then some ⟨bytesToNat l, bytesToNat_lt l h⟩ else none

namespace BValue

/-- The queried node id of a response (`RespMsg::queried_node_id`): the
`id` entry of the `r` dictionary, parsed as a 20-byte id. -/
def queried_node_id (v : BValue) : Option NodeId :=
  (((v.as_dict.bind (fun d => dictGet d [114])).bind as_dict).bind
    (fun r => dictGet r [105, 100])).bind
    (fun idv => idv.as_byte_str.bind idFromBytes)

/-- The querying node id of a query (`QueryMsg::querying_node_id`): the
`id` entry of the `a` dictionary, parsed as a 20-byte id. -/
def querying_node_id (v : BValue) : Option NodeId :=
  (((v.as_dict.bind (fun d => dictGet d [97])).bind as_dict).bind
    (fun a => dictGet a [105, 100])).bind
    (fun idv => idv.as_byte_str.bind idFromBytes)

end BValue

/-- An outstanding query transaction (cloudburst `Transaction`,
`Transaction::new(addr_opt_id, tx_id, deadline)`). -/
structure Transaction (Addr : Type) where
  addr_opt_id : AddrOptId Addr
  tx_id : TxId
  deadline : Nat
deriving DecidableEq

/-- Modelled from the spec: the cloudburst `Transactions` container — a
keyed store of transactions. -/
structure Transactions (Addr : Type) where
  txs : List (Transaction Addr)
deriving DecidableEq

namespace Transactions

/-- Empty store (`Transactions::default`). -/
def default {Addr : Type} : Transactions Addr := ⟨[]⟩

/-- Number of held transactions (`Transactions::len`). -/
def len {Addr : Type} (m : Transactions Addr) : Nat := m.txs.length

/-- Membership of a transaction id (`Transactions::contains`). -/
def containsId {Addr : Type} (m : Transactions Addr) (i : TxId) : Bool :=
  m.txs.any (fun tx => tx.tx_id = i)

/-- Insertion of a transaction (`Transactions::insert`). -/
def insert {Addr : Type} (m : Transactions Addr) (tx : Transaction Addr) :
    Transactions Addr :=
  ⟨m.txs ++ [tx]⟩

/-- Modelled from the spec: `Transactions::timeout` is the minimum deadline
across held transactions. -/
def timeoutTx {Addr : Type} (m : Transactions Addr) : Option Nat :=
  (m.txs.map Transaction.deadline).min?

/-- Removal of the transaction holding a given id, with the removed
transaction returned (the lookup-and-remove of spec steps 2 and 4). -/
def removeById {Addr : Type} (m : Transactions Addr) (i : TxId) :
    Option (Transaction Addr × Transactions Addr) :=
  match m.txs.findIdx? (fun tx => tx.tx_id = i) with
  | none => none
  | some idx =>
    match m.txs.get? idx with
    | none => none
    | some tx => some (tx, ⟨m.txs.eraseIdx idx⟩)

/-- Modelled from the spec: `Transactions::pop_timed_out_tx(now)` returns a
transaction whose deadline is at or before `now`, removing it; the first
such transaction is taken. -/
def pop_timed_out_tx {Addr : Type} (m : Transactions Addr) (now : Nat) :
    Option (Transaction Addr × Transactions Addr) :=
  match m.txs.findIdx? (fun tx => decide (tx.deadline ≤ now)) with
  | none => none
  | some idx =>
    match m.txs.get? idx with
    | none => none
    | some tx => some (tx, ⟨m.txs.eraseIdx idx⟩)

/-- Transaction id of a message: the 2-byte big-endian `t` field (spec
step 1 of response reconciliation; rejected when missing or of the wrong
length). -/
def msgTxId (v : BValue) : Option TxId :=
  match v.tx_id_bytes with
  | none => none
  | some t =>
    if h : t.length = 2 then
      some ⟨(t.get ⟨0, by omega⟩).val * 256 + (t.get ⟨1, by omega⟩).val, by
        have h0 : (t.get ⟨0, by omega⟩).val < 256 := (t.get ⟨0, by omega⟩).isLt
        have h1 : (t.get ⟨1, by omega⟩).val < 256 := (t.get ⟨1, by omega⟩).isLt
        omega⟩
    else none

/-- Modelled from the spec: `Transactions::on_recv_resp` — extract the
transaction id, look the transaction up, optionally check the responder's
id strictly against the expected id, reject self-responses, then remove
and return the transaction. -/
def on_recv_resp {Addr : Type} (m : Transactions Addr) (v : BValue)
    (strict : Bool) (local_id : NodeId) :
    Option (Transaction Addr × Transactions Addr) :=
  match msgTxId v with
  | none => none
  | some txid =>
    match m.removeById txid with
    | none => none
    | some (tx, rest) =>
      let strictOk :=
        if strict then
          match tx.addr_opt_id.id with
          | some expected => v.queried_node_id = some expected
          | none => true
        else true
      if strictOk && !(v.queried_node_id = some local_id) then
        some (tx, rest)
      else none

/-- Modelled from the spec: `Transactions::on_recv_error` — extract the
transaction id, look the transaction up, then remove and return it. -/
def on_recv_error {Addr : Type} (m : Transactions Addr) (v : BValue) :
    Option (Transaction Addr × Transactions Addr) :=
  match msgTxId v with
  | none => none
  | some txid => m.removeById txid

end Transactions

/-- The supported address families (`SupportedAddr`). -/
inductive SupportedAddr where
  | ipv4
  | ipv6
  | ipv4AndIpv6
deriving DecidableEq

/-- Status of a find-node candidate (spec: `Pending | InFlight(tx_id) |
Responded | Failed`). -/
inductive CandidateStatus where
  | pending
  | inFlight (tx : TxId)
  | responded
  | failed
deriving DecidableEq

/-- Modelled from the spec: a find-node operation (`find_node_op.rs` is
declared by `src/lib.rs` but missing from the sources) — target id,
supported address family and the candidate set with per-candidate status.
Candidate merging from response `nodes` lists and α-promotion author
queries through interfaces absent here, so `handle` models the status
bookkeeping: the candidate whose in-flight transaction completed is
marked responded or failed. -/
structure FindNodeOp (Addr : Type) where
  target : NodeId
  supported_addr : SupportedAddr
  candidates : List (AddrOptId Addr × CandidateStatus)
deriving DecidableEq

/-- Completion event fed to a find-node operation
(`find_node_op::Response`). -/
inductive FindNodeResponse where
  | resp (v : BValue)
  | error (v : BValue)
  | timeout

namespace FindNodeOp

/-- Modelled from the spec: `FindNodeOp::new(target, supported_addr,
neighbors)` seeds the candidate set, all pending. -/
def new {Addr : Type} (target : NodeId) (supported_addr : SupportedAddr)
    (neighbors : List (AddrOptId Addr)) : FindNodeOp Addr :=
  { target := target
    supported_addr := supported_addr
    candidates := neighbors.map (fun n => (n, CandidateStatus.pending)) }

/-- Modelled from the spec: `FindNodeOp::handle(tx, resp)` marks the
candidate whose in-flight transaction is `tx` as responded (on a
response) or failed (on an error or timeout). -/
def handle {Addr : Type} (op : FindNodeOp Addr) (tx : Transaction Addr)
    (resp : FindNodeResponse) : FindNodeOp Addr :=
  { op with candidates := op.candidates.map (fun c =>
      if c.2 = CandidateStatus.inFlight tx.tx_id then
        match resp with
        | .resp _ => (c.1, CandidateStatus.responded)
        | .error _ => (c.1, CandidateStatus.failed)
        | .timeout => (c.1, CandidateStatus.failed)
      else c) }

/-- Modelled from the spec: `FindNodeOp::is_done` — terminal when no query
is in flight and every candidate among the eight closest to the target is
responded or failed. -/
def is_done {Addr : Type} (op : FindNodeOp Addr) : Bool :=
  op.candidates.all (fun c => match c.2 with
    | .inFlight _ => false
    | _ => true) &&
  ((op.candidates.mergeSort (fun a b =>
      decide ((match a.1.id with
               | some i => i.distance op.target
               | none => idSize) ≤
              (match b.1.id with
               | some i => i.distance op.target
               | none => idSize)))).take 8).all
    (fun c => decide (c.2 = CandidateStatus.responded ∨
      c.2 = CandidateStatus.failed))

end FindNodeOp

/-- Configuration of the local node (`Config`). -/
structure Config where
  local_id : NodeId
  client_version : Option (List Byte)
  default_query_timeout : Nat
  is_read_only_node : Bool
  is_response_queried_node_id_strictly_checked : Bool
  supported_addr : SupportedAddr
deriving DecidableEq

/-- Constructor `Config::new(id)` with its defaults: sixty-second query
timeout, not read only, strict response id check, both address
families. -/
def Config.new (id : NodeId) : Config :=
  { local_id := id
    client_version := none
    default_query_timeout := 60
    is_read_only_node := false
    is_response_queried_node_id_strictly_checked := true
    supported_addr := .ipv4AndIpv6 }

/-- Message events surfaced to the host (`MsgEvent`). -/
inductive MsgEvent where
  | resp (v : BValue)
  | error (v : BValue)
  | query (v : BValue)

/-- A deserialized message event with the relevant node information and
local transaction identifier (`ReadEvent`); the projection
`ReadEvent.tx_id` is the `ReadEvent::tx_id` accessor. -/
structure ReadEvent (Addr : Type) where
  addr_opt_id : AddrOptId Addr
  tx_id : Option TxId
  msg : MsgEvent

/-- Errors surfaced by `on_recv` after a successful decode
(`ErrorKind::UnknownMsgTy` and `ErrorKind::InvalidInput`; decode errors
belong to the external bencode layer). -/
inductive RecvError where
  | unknownMsgTy (v : BValue)
  | invalidInput (v : BValue)

/-- The DHT node facade (`Node<Addr>` of `src/lib.rs`). -/
structure Node (Addr : Type) where
  config : Config
  routing_table : CbTable Addr
  find_pivot_id_deadline : Nat
  tx_manager : Transactions Addr
  find_node_ops : List (FindNodeOp Addr)

namespace Node

/-- Next timeout deadline of the facade (`Node::timeout` in
`src/lib.rs`): the minimum of the transaction manager's timeout and the
routing table's timeout, when either is defined. -/
def timeout {Addr : Type} (n : Node Addr) : Option Nat :=
  ([n.tx_manager.timeoutTx, n.routing_table.timeoutT].filterMap
    (fun x => x)).min?

/-- Fuel of the linear-probing loop in `Node::next_tx_id`: one candidate
per possible id suffices, since a window of 65536 consecutive wrapping
candidates covers every id. -/
def TX_PROBE_FUEL : Nat := 65536

/-- The linear-probing loop of `Node::next_tx_id`: try the current
candidate, advancing by wrapping increment while the candidate is
taken. -/
def probeTxId {Addr : Type} (m : Transactions Addr) :
    Nat → TxId → Option TxId
  | 0, _ => none
  | fuel + 1, num =>
    if !m.containsId num then some num
    else probeTxId m fuel (num + 1)

/-- Transaction id allocation (`Node::next_tx_id` in `src/lib.rs`): fail
when `tx_manager.len() == u16::MAX`, otherwise linearly probe from the
randomly drawn starting id `num` (the RNG draw is an input). -/
def next_tx_id {Addr : Type} (n : Node Addr) (num : TxId) : Option TxId :=
  if n.tx_manager.len = 65535 then none
  else probeTxId n.tx_manager TX_PROBE_FUEL num

/-- Insertion of transaction information (`Node::insert_tx`). -/
def insert_tx {Addr : Type} (n : Node Addr) (tx : Transaction Addr) :
    Node Addr :=
  { n with tx_manager := n.tx_manager.insert tx }

/-- Processing of a received message (`Node::on_recv_with_now` in
`src/lib.rs`), modelled from the decoded value onward: responses and
errors reconcile against the transaction manager, feed the routing table
and every find-node operation and purge terminal operations; queries and
unknown-type messages feed the routing table with the querying node's id
when present; a missing message type is an error. -/
def on_recv_value {Addr : Type} [DecidableEq Addr] (n : Node Addr)
    (value : BValue) (addr : Addr) (now : Nat) :
    Except RecvError (Node Addr × ReadEvent Addr) :=
  match value.ty with
  | none => .error (.unknownMsgTy value)
  | some kind =>
    match kind with
    | .response =>
      match n.tx_manager.on_recv_resp value
          n.config.is_response_queried_node_id_strictly_checked
          n.config.local_id with
      | some (tx, mgr) =>
        let rt :=
          match tx.addr_opt_id.id.or value.queried_node_id with
          | some node_id =>
            routing.on_recv n.routing_table ⟨addr, node_id⟩ kind
              (some tx.tx_id) (now + BUCKET_REFRESH_INTERVAL) now
          | none => n.routing_table
        let ops := (n.find_node_ops.map (fun op =>
          op.handle tx (.resp value))).filter (fun op => !op.is_done)
        .ok ({ n with tx_manager := mgr, routing_table := rt
                      find_node_ops := ops },
             { addr_opt_id := tx.addr_opt_id, tx_id := none
               msg := .resp value })
      | none => .error (.invalidInput value)
    | .error =>
      match n.tx_manager.on_recv_error value with
      | some (tx, mgr) =>
        let rt :=
          match tx.addr_opt_id.id with
          | some node_id =>
            routing.on_recv n.routing_table ⟨addr, node_id⟩ kind
              (some tx.tx_id) (now + BUCKET_REFRESH_INTERVAL) now
          | none => n.routing_table
        let ops := (n.find_node_ops.map (fun op =>
          op.handle tx (.error value))).filter (fun op => !op.is_done)
        .ok ({ n with tx_manager := mgr, routing_table := rt
                      find_node_ops := ops },
             { addr_opt_id := tx.addr_opt_id, tx_id := none
               msg := .error value })
      | none => .error (.invalidInput value)
    | .query | .unknown _ =>
      let querying_node_id := value.querying_node_id
      let addr_opt_id : AddrOptId Addr := ⟨addr, querying_node_id⟩
      let rt :=
        match querying_node_id with
        | some node_id =>
          routing.on_recv n.routing_table ⟨addr, node_id⟩ kind none
            (now + BUCKET_REFRESH_INTERVAL) now
        | none => n.routing_table
      .ok ({ n with routing_table := rt },
           { addr_opt_id := addr_opt_id, tx_id := none
             msg := .query value })

/-- Facade neighbor search (`Node::find_neighbors`). -/
def find_neighbors {Addr : Type} (n : Node Addr) (id : NodeId) (now : Nat) :
    List (AddrId Addr) :=
  routing.find_neighbors n.routing_table id now

/-- Construction of a find-node operation toward a target
(`Node::find_node` in `src/lib.rs`): the eight closest known neighbors
plus the bootstrap addresses seed the candidate set. -/
def find_node {Addr : Type} (n : Node Addr) (target_id : NodeId)
    (bootstrap_addrs : List Addr) (now : Nat) : FindNodeOp Addr :=
  let neighbors :=
    ((routing.find_neighbors n.routing_table target_id now).take 8).map
      (fun a => AddrOptId.mk a.addr (some a.id)) ++
    bootstrap_addrs.map (fun addr => AddrOptId.mk addr none)
  FindNodeOp.new target_id n.config.supported_addr neighbors

/-- Start of a pivot lookup (`Node::find_node_pivot`). -/
def find_node_pivot {Addr : Type} (n : Node Addr)
    (bootstrap_addrs : List Addr) (now : Nat) : Node Addr :=
  { n with find_node_ops :=
      n.find_node_ops ++ [n.find_node n.routing_table.pivot
        bootstrap_addrs now] }

/-- Timeout processing of the facade (`Node::on_timeout_with_now` in
`src/lib.rs`): when the pivot re-lookup deadline has passed, start a
pivot find-node operation and reset the deadline. -/
def on_timeout_with_now {Addr : Type} (n : Node Addr) (now : Nat) :
    Node Addr :=
  if n.find_pivot_id_deadline ≤ now then
    let n1 := n.find_node_pivot [] now
    { n1 with find_pivot_id_deadline := now + FIND_LOCAL_ID_INTERVAL }
  else n

/-- Extraction of a timed-out transaction (`Node::pop_timed_out_tx` in
`src/lib.rs`): pop one transaction whose deadline has passed, feed it to
the routing table's timeout merge and to every find-node operation, and
purge terminal operations. -/
def pop_timed_out_tx {Addr : Type} [DecidableEq Addr] (n : Node Addr)
    (now : Nat) : Option (Transaction Addr) × Node Addr :=
  match n.tx_manager.pop_timed_out_tx now with
  | some (tx, mgr) =>
    let rt :=
      match tx.addr_opt_id.id with
      | some node_id =>
        routing.on_timeout n.routing_table ⟨tx.addr_opt_id.addr, node_id⟩
          tx.tx_id
      | none => n.routing_table
    let ops := (n.find_node_ops.map (fun op =>
      op.handle tx .timeout)).filter (fun op => !op.is_done)
    (some tx, { n with tx_manager := mgr, routing_table := rt
                       find_node_ops := ops })
  | none => (none, n)

end Node

namespace MsgBuffer

/-- Big-endian two-byte encoding of a transaction id
(`tx_id.to_be_bytes`). -/
def txIdBeBytes (i : TxId) : List Byte :=
  [⟨i.val / 256, by omega⟩, ⟨i.val % 256, Nat.mod_lt _ (by decide)⟩]

/-- Symbolic form of a serialized outbound datagram: the
`krpc::ser::QueryMsg`, `RespMsg` and `ErrMsg` envelopes handed to
`bt_bencode::to_vec` in `src/msg_buffer.rs` (the bencode byte encoder is
an external collaborator). -/
inductive MsgData where
  | queryMsg (a : Option BValue) (q : List Byte) (t : List Byte)
      (v : Option (List Byte))
  | respMsg (r : Option BValue) (t : List Byte) (v : Option (List Byte))
  | errMsg (e : Option BValue) (t : List Byte) (v : Option (List Byte))

/-- A transaction of the `msg_buffer.rs` revision
(`transaction::Transaction { tx_id, addr_opt_id, deadline }` as built by
`OutboundMsg::into_transaction`). -/
structure MTransaction (Addr : Type) where
  tx_id : TxId
  addr_opt_id : AddrOptId Addr
  deadline : Nat
deriving DecidableEq

/-- Modelled from the spec: the transaction `Manager` of the
`msg_buffer.rs` revision is missing from the sources; per the spec, query
authoring only reserves a transaction id from the manager, and the
transaction itself is inserted at pop time.  The reservation is modelled
as a wrapping counter; held transactions are untouched by it. -/
structure Manager (Addr : Type) where
  next_id : TxId
  transactions : List (MTransaction Addr)

/-- Modelled from the spec: `Manager::next_transaction_id` reserves and
returns a fresh transaction id without inserting a transaction. -/
def Manager.next_transaction_id {Addr : Type} (m : Manager Addr) :
    TxId × Manager Addr :=
  (m.next_id, { m with next_id := m.next_id + 1 })

/-- An outbound datagram awaiting dequeue (`OutboundMsg` of
`src/msg_buffer.rs`). -/
structure OutboundMsg (Addr : Type) where
  tx_id : Option TxId
  timeout : Nat
  addr_opt_id : AddrOptId Addr
  msg_data : MsgData

/-- Conversion of a dequeued outbound message into its transaction
(`OutboundMsg::into_transaction` in `src/msg_buffer.rs`): present exactly
when the message carries a transaction id, with the deadline computed
from the current time at the call (`Instant::now()`, passed here as
`now`) plus the stored timeout. -/
def OutboundMsg.into_transaction {Addr : Type} (m : OutboundMsg Addr)
    (now : Nat) : Option (MTransaction Addr) :=
  m.tx_id.map (fun tx_id =>
    { tx_id := tx_id, addr_opt_id := m.addr_opt_id
      deadline := now + m.timeout })

/-- The message buffer (`Buffer` of `src/msg_buffer.rs`): FIFOs of inbound
events and outbound datagrams. -/
structure Buffer (Addr : Type) where
  inbound : List (ReadEvent Addr)
  outbound : List (OutboundMsg Addr)

/-- Empty buffer (`Buffer::new`). -/
def Buffer.new {Addr : Type} : Buffer Addr := ⟨[], []⟩

/-- Enqueue of an inbound event (`Buffer::push_inbound`). -/
def Buffer.push_inbound {Addr : Type} (b : Buffer Addr)
    (msg : ReadEvent Addr) : Buffer Addr :=
  { b with inbound := b.inbound ++ [msg] }

/-- Dequeue of an inbound event (`Buffer::pop_inbound`). -/
def Buffer.pop_inbound {Addr : Type} (b : Buffer Addr) :
    Option (ReadEvent Addr) × Buffer Addr :=
  match b.inbound with
  | [] => (none, b)
  | x :: xs => (some x, { b with inbound := xs })

/-- Query authoring (`Buffer::write_query` in `src/msg_buffer.rs`):
reserve a transaction id from the manager, enqueue the serialized query
envelope on the outbound FIFO together with the id and timeout, and
return the id.  The query arguments are passed as their bencoded value
and method name (`T::to_value()` and `T::method_name()`). -/
def Buffer.write_query {Addr : Type} (b : Buffer Addr) (argsVal : BValue)
    (methodName : List Byte) (addr_opt_id : AddrOptId Addr) (timeout : Nat)
    (client_version : Option (List Byte)) (tx_manager : Manager Addr) :
    TxId × Buffer Addr × Manager Addr :=
  let (tx_id, tx_manager) := tx_manager.next_transaction_id
  (tx_id,
   { b with outbound := b.outbound ++
      [{ tx_id := some tx_id
         addr_opt_id := addr_opt_id
         msg_data := MsgData.queryMsg (some argsVal) methodName
           (txIdBeBytes tx_id) client_version
         timeout := timeout }] },
   tx_manager)

/-- Response authoring (`Buffer::write_resp`): enqueue the serialized
response envelope with no transaction tracked and a zero timeout. -/
def Buffer.write_resp {Addr : Type} (b : Buffer Addr)
    (transaction_id : List Byte) (resp : Option BValue)
    (addr_opt_id : AddrOptId Addr) (client_version : Option (List Byte)) :
    Buffer Addr :=
  { b with outbound := b.outbound ++
      [{ tx_id := none
         addr_opt_id := addr_opt_id
         msg_data := MsgData.respMsg resp transaction_id client_version
         timeout := 0 }] }

/-- Error authoring (`Buffer::write_err`): enqueue the serialized error
envelope with no transaction tracked and a zero timeout. -/
def Buffer.write_err {Addr : Type} (b : Buffer Addr)
    (transaction_id : List Byte) (details : BValue)
    (addr_opt_id : AddrOptId Addr) (client_version : Option (List Byte)) :
    Buffer Addr :=
  { b with outbound := b.outbound ++
      [{ tx_id := none
         addr_opt_id := addr_opt_id
         msg_data := MsgData.errMsg (some details) transaction_id
           client_version
         timeout := 0 }] }

/-- Dequeue of the next outbound datagram (`Buffer::pop_outbound`). -/
def Buffer.pop_outbound {Addr : Type} (b : Buffer Addr) :
    Option (OutboundMsg Addr) × Buffer Addr :=
  match b.outbound with
  | [] => (none, b)
  | x :: xs => (some x, { b with outbound := xs })

end MsgBuffer

/-- Replacement of the last list element satisfying `p` by its image under
`f`; models mutation through `iter_mut().rev().find(p)`. -/
def updateLast {α : Type} (p : α → Bool) (f : α → α) (l : List α) : List α :=
  (updateFirst p f l.reverse).reverse

/-- Big-endian 20-byte encoding of a node id. -/
def idToBytes (i : NodeId) : List Byte :=
  (List.range 20).map (fun k =>
    ⟨i.val / 256 ^ (19 - k) % 256, Nat.mod_lt _ (by decide)⟩)

namespace Legacy

/-- Message kind of the legacy revision (`Kind` in `src/krpc.rs`). -/
inductive Kind where
  | query
  | response
  | error
  | unknown (s : List Byte)
deriving DecidableEq

/-- Address-id pair of the legacy revision: `src/routing.rs` reads
`addr_id.id()` as an `Option<Id>`, so the id is optional here. -/
structure AddrId (Addr : Type) where
  addr : Addr
  id : Option NodeId
deriving DecidableEq

/-- Liveness classification of the legacy remote node (`RemoteState`). -/
inductive RemoteState where
  | good
  | questionable
  | bad
deriving DecidableEq

/-- Modelled from the spec: the legacy remote-node record
(`node::remote::RemoteNode`, missing from the sources) — karma counter,
response and query deadlines and the last-ping marker that
`src/routing.rs` reads as `last_pinged`.  A fresh record
(`RemoteNode::with_addr_id`) has no deadlines and zero karma. -/
structure RemoteNode (Addr : Type) where
  addr_id : AddrId Addr
  karma : Int
  next_response_deadline : Option Nat
  next_query_deadline : Option Nat
  last_pinged : Option Nat
deriving DecidableEq

namespace RemoteNode

/-- Modelled from the spec: `RemoteNode::with_addr_id` builds a fresh
record. -/
def with_addr_id {Addr : Type} (addr_id : AddrId Addr) : RemoteNode Addr :=
  { addr_id := addr_id, karma := 0, next_response_deadline := none
    next_query_deadline := none, last_pinged := none }

/-- Truth of `now < deadline` for an optional deadline. -/
def beforeOpt (now : Nat) : Option Nat → Bool
  | some d => decide (now < d)
  | none => false

/-- Modelled from the spec: the derived liveness state — good while either
deadline is in the future, bad when, in addition, karma fell below `-2`,
questionable otherwise. -/
def state_with_now {Addr : Type} (n : RemoteNode Addr) (now : Nat) :
    RemoteState :=
  if beforeOpt now n.next_response_deadline then .good
  else if beforeOpt now n.next_query_deadline then .good
  else if n.karma < -2 then .bad
  else .questionable

/-- Modelled from the spec: the legacy receive callback — responses renew
the response deadline and raise karma (capped at 3), queries renew the
query deadline, errors and unknown kinds lower karma (saturating), errors
also renewing the response deadline. -/
def on_msg_received {Addr : Type} (n : RemoteNode Addr) (kind : Kind)
    (now : Nat) : RemoteNode Addr :=
  match kind with
  | .response =>
    { n with next_response_deadline := some (now + routing.TIMEOUT_INTERVAL)
             karma := Min.min (n.karma + 1) 3
             last_pinged := none }
  | .query =>
    { n with next_query_deadline := some (now + routing.TIMEOUT_INTERVAL) }
  | .error =>
    { n with next_response_deadline := some (now + routing.TIMEOUT_INTERVAL)
             karma := Max.max (n.karma - 1) (-128) }
  | .unknown _ =>
    { n with karma := Max.max (n.karma - 1) (-128) }

/-- Modelled from the spec: the legacy timeout callback — karma drops
(saturating) and the ping marker is cleared. -/
def on_resp_timeout {Addr : Type} (n : RemoteNode Addr) : RemoteNode Addr :=
  { n with karma := Max.max (n.karma - 1) (-128), last_pinged := none }

/-- Modelled from the spec: `RemoteNode::on_ping` records the ping time. -/
def on_ping {Addr : Type} (n : RemoteNode Addr) (now : Nat) :
    RemoteNode Addr :=
  { n with last_pinged := some now }

/-- Modelled from the spec: `RemoteNode::next_msg_deadline` — the later of
the two deadlines, when any is set. -/
def next_msg_deadline {Addr : Type} (n : RemoteNode Addr) : Option Nat :=
  match n.next_response_deadline, n.next_query_deadline with
  | some a, some b => some (Max.max a b)
  | some a, none => some a
  | none, some b => some b
  | none, none => none

end RemoteNode

/-- Expected-change interval of `src/routing.rs`,
`EXPECT_CHANGE_INTERVAL` (fifteen minutes). -/
def EXPECT_CHANGE_INTERVAL : Nat := 15 * 60

/-- A bucket of the legacy routing table (`Bucket` in `src/routing.rs`):
inclusive range, primary records, replacement records and the
expected-change deadline. -/
structure Bucket (Addr : Type) where
  lo : NodeId
  hi : NodeId
  nodes : List (RemoteNode Addr)
  replacement_nodes : List (RemoteNode Addr)
  expected_change_deadline : Nat
deriving DecidableEq

/-- The value of the KRPC `ping` query arguments
(`PingQueryArgs::with_id(local_id).to_value()`): a dictionary holding the
local id. -/
def pingArgsVal (local_id : NodeId) : BValue :=
  BValue.dict [([105, 100], BValue.bytes (idToBytes local_id))]

/-- The `ping` method name as bytes. -/
def pingMethodName : List Byte := [112, 105, 110, 103]

/-- The `find_node` method name as bytes. -/
def findNodeMethodName : List Byte :=
  [102, 105, 110, 100, 95, 110, 111, 100, 101]

/-- The value of the KRPC `find_node` query arguments: a dictionary
holding the local id and the target id. -/
def findNodeArgsVal (local_id target : NodeId) : BValue :=
  BValue.dict [([105, 100], BValue.bytes (idToBytes local_id)),
               ([116, 97, 114, 103, 101, 116],
                BValue.bytes (idToBytes target))]

/-- Authoring of a ping toward a node, as done by
`ping_least_recently_seen_questionable_node` in `src/routing.rs` through
`msg_buffer.write_query` (this revision passes no client version). -/
def writePing {Addr : Type} (config : Config) (tx_manager : MsgBuffer.Manager Addr)
    (msg_buffer : MsgBuffer.Buffer Addr) (addr_opt_id : AddrOptId Addr) :
    MsgBuffer.Manager Addr × MsgBuffer.Buffer Addr :=
  let r := msg_buffer.write_query (pingArgsVal config.local_id)
    pingMethodName addr_opt_id config.default_query_timeout none tx_manager
  (r.2.2, r.2.1)

namespace Bucket

/-- Containment of an id in the bucket's inclusive range. -/
def containsId {Addr : Type} (b : Bucket Addr) (i : NodeId) : Bool :=
  decide (b.lo ≤ i) && decide (i ≤ b.hi)

/-- Constructor `Bucket::new(range, max_nodes_per_bucket)`: empty lists
and an expected-change deadline five minutes out (`Instant::now()`, the
construction time, is passed as `now`). -/
def new {Addr : Type} (lo hi : NodeId) (_max_nodes_per_bucket : Nat)
    (now : Nat) : Bucket Addr :=
  { lo := lo, hi := hi, nodes := [], replacement_nodes := []
    expected_change_deadline := now + 5 * 60 }

/-- Update of the expected-change deadline
(`Bucket::update_expected_change_deadline`; `Instant::now()` is passed as
`now`). -/
def update_expected_change_deadline {Addr : Type} (b : Bucket Addr)
    (now : Nat) : Bucket Addr :=
  { b with expected_change_deadline := now + EXPECT_CHANGE_INTERVAL }

/-- The node comparator of `Bucket::sort_node_ids`: good before
questionable before bad; within a class, later `next_msg_deadline` first
and set deadlines before unset ones. -/
def cmpNodes {Addr : Type} (now : Nat) (a b : RemoteNode Addr) : Ordering :=
  match a.state_with_now now, b.state_with_now now with
  | .good, .questionable | .good, .bad | .questionable, .bad => .lt
  | .questionable, .good | .bad, .questionable | .bad, .good => .gt
  | _, _ =>
    match a.next_msg_deadline, b.next_msg_deadline with
    | none, none => .eq
    | some _, none => .lt
    | none, some _ => .gt
    | some f, some s => compare s f

/-- Sorting of the primary records (`Bucket::sort_node_ids`).  The source
uses `sort_unstable_by`, whose result order among comparator-equal
records is unspecified; the model fixes the stable order, a sorted
permutation as the source guarantees. -/
def sort_node_ids {Addr : Type} (b : Bucket Addr) (now : Nat) :
    Bucket Addr :=
  { b with nodes := b.nodes.mergeSort (fun x y =>
      !(cmpNodes now x y = Ordering.gt)) }

/-- Insertion attempt (`Bucket::try_insert` in `src/routing.rs`): append
while there is room; otherwise replace a bad record (position found
scanning in reverse); otherwise sort and replace a questionable record
(position found scanning in reverse); otherwise only the sort happened. -/
def try_insert {Addr : Type} (b : Bucket Addr) (max_nodes_per_bucket : Nat)
    (addr_id : AddrId Addr) (now : Nat) : Bucket Addr :=
  if b.nodes.length < max_nodes_per_bucket then
    (sort_node_ids
      { b with nodes := (b.nodes ++ [RemoteNode.with_addr_id addr_id]) }
      now).update_expected_change_deadline now
  else
    match b.nodes.reverse.findIdx? (fun n =>
        n.state_with_now now = RemoteState.bad) with
    | some pos =>
      (sort_node_ids
        { b with nodes := (b.nodes.set pos (RemoteNode.with_addr_id addr_id)) }
        now).update_expected_change_deadline now
    | none =>
      let b := sort_node_ids b now
      match b.nodes.reverse.findIdx? (fun n =>
          n.state_with_now now = RemoteState.questionable) with
      | some pos =>
        Bucket.update_expected_change_deadline
          { b with nodes := (b.nodes.set pos (RemoteNode.with_addr_id addr_id)) }
          now
      | none => b

/-- Cap on replacement records (`Bucket::max_replacement_nodes`): the
number of questionable primary records. -/
def max_replacement_nodes {Addr : Type} (b : Bucket Addr) (now : Nat) :
    Nat :=
  (b.nodes.filter (fun n =>
    n.state_with_now now = RemoteState.questionable)).length

/-- Ping of the least recently seen questionable node
(`Bucket::ping_least_recently_seen_questionable_node` in
`src/routing.rs`): when fewer questionable nodes are pinged than
replacements are waiting, author a ping toward the last questionable
non-pinged record and mark it pinged. -/
def ping_least_recently_seen_questionable_node {Addr : Type}
    (b : Bucket Addr) (config : Config) (tx_manager : MsgBuffer.Manager Addr)
    (msg_buffer : MsgBuffer.Buffer Addr) (now : Nat) :
    Bucket Addr × MsgBuffer.Manager Addr × MsgBuffer.Buffer Addr :=
  let pinged_nodes_count := (b.nodes.filter (fun n =>
    n.state_with_now now = RemoteState.questionable &&
      n.last_pinged.isSome)).length
  if pinged_nodes_count < b.replacement_nodes.length then
    match b.nodes.reverse.find? (fun n =>
        n.state_with_now now = RemoteState.questionable &&
          n.last_pinged = none) with
    | some node_to_ping =>
      let (tx_manager, msg_buffer) := writePing config tx_manager msg_buffer
        ⟨node_to_ping.addr_id.addr, node_to_ping.addr_id.id⟩
      ({ b with nodes := updateLast (fun n =>
          n.state_with_now now = RemoteState.questionable &&
            n.last_pinged = none) (fun n => n.on_ping now) b.nodes },
       tx_manager, msg_buffer)
    | none => (b, tx_manager, msg_buffer)
  else (b, tx_manager, msg_buffer)

/-- Receive merge of a bucket (`Bucket::on_msg_received` in
`src/routing.rs`).  When the sender is known, its record is updated and
the bucket reorganised by kind and resulting state; when unknown, an
unknown kind changes nothing, and otherwise the contact is appended,
replaces a bad record, or joins the replacement list. -/
def on_msg_received {Addr : Type} [DecidableEq Addr] (b : Bucket Addr)
    (max_nodes_per_bucket : Nat) (addr_id : AddrId Addr) (kind : Kind)
    (config : Config) (tx_manager : MsgBuffer.Manager Addr)
    (msg_buffer : MsgBuffer.Buffer Addr) (now : Nat) :
    Bucket Addr × MsgBuffer.Manager Addr × MsgBuffer.Buffer Addr :=
  if (b.nodes.find? (fun n => n.addr_id = addr_id)).isSome then
    let b := { b with nodes := (updateFirst (fun n => n.addr_id = addr_id)
      (fun n => n.on_msg_received kind now) b.nodes) }
    match kind with
    | .response | .query =>
      let maxRepl := b.max_replacement_nodes now
      let b := if b.replacement_nodes.length > maxRepl then
          { b with replacement_nodes := b.replacement_nodes.take maxRepl }
        else b
      let b := b.sort_node_ids now
      let (b, tx_manager, msg_buffer) :=
        b.ping_least_recently_seen_questionable_node config tx_manager
          msg_buffer now
      (b.update_expected_change_deadline now, tx_manager, msg_buffer)
    | .error | .unknown _ =>
      match (b.nodes.find? (fun n => n.addr_id = addr_id)).map
          (fun n => n.state_with_now now) with
      | some RemoteState.good => (b.sort_node_ids now, tx_manager, msg_buffer)
      | some RemoteState.questionable =>
        let b := b.sort_node_ids now
        b.ping_least_recently_seen_questionable_node config tx_manager
          msg_buffer now
      | _ =>
        let b :=
          match b.replacement_nodes.getLast? with
          | some replacement_node =>
            ({ b with
                nodes := (updateFirst (fun n => n.addr_id = addr_id)
                  (fun _ => replacement_node) b.nodes)
                replacement_nodes := b.replacement_nodes.dropLast
              }).update_expected_change_deadline now
          | none => b
        (b.sort_node_ids now, tx_manager, msg_buffer)
  else
    match kind with
    | .unknown _ => (b, tx_manager, msg_buffer)
    | _ =>
      if b.nodes.length < max_nodes_per_bucket then
        let node := (RemoteNode.with_addr_id addr_id).on_msg_received kind now
        ((sort_node_ids { b with nodes := b.nodes ++ [node] }
            now).update_expected_change_deadline now,
         tx_manager, msg_buffer)
      else
        match b.nodes.reverse.findIdx? (fun n =>
            n.state_with_now now = RemoteState.bad) with
        | some pos =>
          let node := (RemoteNode.with_addr_id addr_id).on_msg_received kind
            now
          ((sort_node_ids { b with nodes := b.nodes.set pos node }
              now).update_expected_change_deadline now,
           tx_manager, msg_buffer)
        | none =>
          if b.replacement_nodes.length < b.max_replacement_nodes now then
            let node := (RemoteNode.with_addr_id addr_id).on_msg_received
              kind now
            let b := sort_node_ids { b with replacement_nodes :=
              b.replacement_nodes ++ [node] } now
            b.ping_least_recently_seen_questionable_node config tx_manager
              msg_buffer now
          else (b, tx_manager, msg_buffer)

/-- Timeout merge of a bucket (`Bucket::on_resp_timeout` in
`src/routing.rs`): the matching record absorbs the timeout, then the
bucket reorganises by the record's resulting state. -/
def on_resp_timeout {Addr : Type} [DecidableEq Addr] (b : Bucket Addr)
    (addr_id : AddrId Addr) (config : Config)
    (tx_manager : MsgBuffer.Manager Addr) (msg_buffer : MsgBuffer.Buffer Addr)
    (now : Nat) :
    Bucket Addr × MsgBuffer.Manager Addr × MsgBuffer.Buffer Addr :=
  if (b.nodes.find? (fun n => n.addr_id = addr_id)).isSome then
    let b := { b with nodes := (updateFirst (fun n => n.addr_id = addr_id)
      RemoteNode.on_resp_timeout b.nodes) }
    match (b.nodes.find? (fun n => n.addr_id = addr_id)).map
        (fun n => n.state_with_now now) with
    | some RemoteState.good => (b, tx_manager, msg_buffer)
    | some RemoteState.questionable =>
      let b := b.sort_node_ids now
      b.ping_least_recently_seen_questionable_node config tx_manager
        msg_buffer now
    | _ =>
      let b :=
        match b.replacement_nodes.getLast? with
        | some replacement_node =>
          ({ b with
              nodes := (updateFirst (fun n => n.addr_id = addr_id)
                (fun _ => replacement_node) b.nodes)
              replacement_nodes := b.replacement_nodes.dropLast
            }).update_expected_change_deadline now
        | none => b
      (b.sort_node_ids now, tx_manager, msg_buffer)
  else (b, tx_manager, msg_buffer)

/-- Splitting of a bucket (`Bucket::split` in `src/routing.rs`): the range
`[lo, hi]` becomes `[lo, mid]` and `[mid.next(), hi]` with
`mid = hi.middle(lo)`, and every primary and replacement record moves to
the half whose range contains its id (records are required by the source
to carry an id; the construction time of the two halves is passed as
`now`). -/
def split {Addr : Type} (b : Bucket Addr) (max_nodes_per_bucket : Nat)
    (now : Nat) : Bucket Addr × Bucket Addr :=
  let middle := NodeId.middle b.hi b.lo
  let inLower : RemoteNode Addr → Bool := fun n =>
    match n.addr_id.id with
    | some i => decide (b.lo ≤ i) && decide (i ≤ middle)
    | none => false
  let lower : Bucket Addr :=
    { (Bucket.new b.lo middle max_nodes_per_bucket now : Bucket Addr) with
      nodes := b.nodes.filter inLower
      replacement_nodes := b.replacement_nodes.filter inLower }
  let upper : Bucket Addr :=
    { (Bucket.new middle.next b.hi max_nodes_per_bucket now : Bucket Addr) with
      nodes := b.nodes.filter (fun n => !inLower n)
      replacement_nodes := b.replacement_nodes.filter (fun n => !inLower n) }
  (lower, upper)

/-- Prioritised contacts of a bucket (`Bucket::prioritized_addr_ids`):
the questionable or good records, in order. -/
def prioritized_addr_ids {Addr : Type} (b : Bucket Addr) (now : Nat) :
    List (AddrId Addr) :=
  (b.nodes.filter (fun n =>
    n.state_with_now now = RemoteState.questionable ||
      n.state_with_now now = RemoteState.good)).map RemoteNode.addr_id

end Bucket

/-- Modelled from the spec: the legacy find-node operation
(`FindNodeOp::with_target_id_and_neighbors` of the missing
`find_node_op.rs` revision) — target id and seed neighbors. -/
structure LFindNodeOp (Addr : Type) where
  target : NodeId
  neighbors : List (AddrId Addr)
deriving DecidableEq

/-- Modelled from the spec: `FindNodeOp::start` authors `find_node`
queries toward up to α = 3 of the seed candidates through the message
buffer. -/
def LFindNodeOp.start {Addr : Type} (op : LFindNodeOp Addr)
    (config : Config) (tx_manager : MsgBuffer.Manager Addr)
    (msg_buffer : MsgBuffer.Buffer Addr) :
    MsgBuffer.Manager Addr × MsgBuffer.Buffer Addr :=
  (op.neighbors.take 3).foldl (fun (acc : MsgBuffer.Manager Addr ×
      MsgBuffer.Buffer Addr) a =>
    let r := acc.2.write_query (findNodeArgsVal config.local_id op.target)
      findNodeMethodName ⟨a.addr, a.id⟩ config.default_query_timeout none
      acc.1
    (r.2.2, r.2.1)) (tx_manager, msg_buffer)

/-- The legacy routing table (`Table` in `src/routing.rs`): the pivot, the
ordered buckets and the bucket capacity. -/
structure Table (Addr : Type) where
  pivot : NodeId
  buckets : List (Bucket Addr)
  max_nodes_per_bucket : Nat
deriving DecidableEq

namespace Table

/-- Neighbor search (`Table::find_neighbors` in `src/routing.rs`): walk
the buckets from the target's bucket outward (the buckets up to and
including the target's in reverse, then from the target's bucket to the
end) and yield each bucket's prioritised contacts. -/
def find_neighbors {Addr : Type} (t : Table Addr) (id : NodeId)
    (now : Nat) : List (AddrId Addr) :=
  let idx := t.buckets.findIdx (fun b => b.containsId id)
  (((t.buckets.take (idx + 1)).reverse ++ t.buckets.drop idx).map
    (fun b => b.prioritized_addr_ids now)).flatten

/-- Lookup start (`Table::find_node` in `src/routing.rs`): seed a
find-node operation with the eight closest neighbors plus the bootstrap
contacts, start it, and hand it to the owner's operation list.  The table
itself is only read. -/
def find_node {Addr : Type} (t : Table Addr) (target_id : NodeId)
    (config : Config) (tx_manager : MsgBuffer.Manager Addr)
    (msg_buffer : MsgBuffer.Buffer Addr) (find_node_ops : List (LFindNodeOp Addr))
    (bootstrap_nodes : List (AddrId Addr)) (now : Nat) :
    MsgBuffer.Manager Addr × MsgBuffer.Buffer Addr × List (LFindNodeOp Addr) :=
  let neighbors := (t.find_neighbors target_id now).take 8 ++ bootstrap_nodes
  let op : LFindNodeOp Addr := ⟨target_id, neighbors⟩
  let (tx_manager, msg_buffer) := op.start config tx_manager msg_buffer
  (tx_manager, msg_buffer, find_node_ops ++ [op])

/-- Insertion of a known contact (`Table::try_insert` in
`src/routing.rs`): ignore contacts without an id or equal to the pivot;
split the last bucket when the contact's bucket holds the pivot and is
full, inserting into the matching half and pushing the pivot half last;
otherwise insert into the contact's bucket in place. -/
def try_insert {Addr : Type} (t : Table Addr) (addr_id : AddrId Addr)
    (now : Nat) : Table Addr :=
  match addr_id.id with
  | none => t
  | some node_id =>
    if node_id = t.pivot then t
    else
      let idx := t.buckets.findIdx (fun b => b.containsId node_id)
      match t.buckets.get? idx with
      | none => t
      | some bucket =>
        if bucket.containsId t.pivot &&
            decide (bucket.nodes.length ≥ t.max_nodes_per_bucket) then
          match t.buckets.getLast? with
          | none => t
          | some last =>
            let (first_bucket, second_bucket) :=
              last.split t.max_nodes_per_bucket now
            let (first_bucket, second_bucket) :=
              if first_bucket.containsId node_id then
                (first_bucket.try_insert t.max_nodes_per_bucket addr_id now,
                 second_bucket)
              else
                (first_bucket,
                 second_bucket.try_insert t.max_nodes_per_bucket addr_id now)
            if first_bucket.containsId t.pivot then
              { t with buckets := t.buckets.dropLast ++
                  [second_bucket, first_bucket] }
            else
              { t with buckets := t.buckets.dropLast ++
                  [first_bucket, second_bucket] }
        else
          { t with buckets := (t.buckets.modify
              (fun b => b.try_insert t.max_nodes_per_bucket addr_id now) idx) }

/-- Construction (`Table::new` in `src/routing.rs`): a single bucket
covering the whole id space, then `try_insert` of every known contact
(construction time passed as `now`). -/
def new {Addr : Type} (pivot : NodeId) (max_nodes_per_bucket : Nat)
    (existing_addr_ids : List (AddrId Addr)) (now : Nat) : Table Addr :=
  let base : Table Addr :=
    { pivot := pivot
      buckets := [Bucket.new NodeId.min NodeId.max max_nodes_per_bucket now]
      max_nodes_per_bucket := max_nodes_per_bucket }
  existing_addr_ids.foldl (fun t a => t.try_insert a now) base

/-- Receive merge (`Table::on_msg_received` in `src/routing.rs`): like
`try_insert`, but the bucket-level merge runs with the message kind and
may author pings through the transaction manager and message buffer. -/
def on_msg_received {Addr : Type} [DecidableEq Addr] (t : Table Addr)
    (addr_id : AddrId Addr) (kind : Kind) (config : Config)
    (tx_manager : MsgBuffer.Manager Addr) (msg_buffer : MsgBuffer.Buffer Addr)
    (now : Nat) :
    Table Addr × MsgBuffer.Manager Addr × MsgBuffer.Buffer Addr :=
  match addr_id.id with
  | none => (t, tx_manager, msg_buffer)
  | some node_id =>
    if node_id = t.pivot then (t, tx_manager, msg_buffer)
    else
      let idx := t.buckets.findIdx (fun b => b.containsId node_id)
      match t.buckets.get? idx with
      | none => (t, tx_manager, msg_buffer)
      | some bucket =>
        if bucket.containsId t.pivot &&
            decide (bucket.nodes.length ≥ t.max_nodes_per_bucket) then
          match t.buckets.getLast? with
          | none => (t, tx_manager, msg_buffer)
          | some last =>
            let (first_bucket, second_bucket) :=
              last.split t.max_nodes_per_bucket now
            let (first_bucket, second_bucket, tx_manager, msg_buffer) :=
              if first_bucket.containsId node_id then
                let r := first_bucket.on_msg_received t.max_nodes_per_bucket
                  addr_id kind config tx_manager msg_buffer now
                (r.1, second_bucket, r.2.1, r.2.2)
              else
                let r := second_bucket.on_msg_received t.max_nodes_per_bucket
                  addr_id kind config tx_manager msg_buffer now
                (first_bucket, r.1, r.2.1, r.2.2)
            if first_bucket.containsId t.pivot then
              ({ t with buckets := t.buckets.dropLast ++
                  [second_bucket, first_bucket] }, tx_manager, msg_buffer)
            else
              ({ t with buckets := t.buckets.dropLast ++
                  [first_bucket, second_bucket] }, tx_manager, msg_buffer)
        else
          let r := bucket.on_msg_received t.max_nodes_per_bucket addr_id kind
            config tx_manager msg_buffer now
          ({ t with buckets := t.buckets.set idx r.1 }, r.2.1, r.2.2)

/-- Timeout merge (`Table::on_resp_timeout` in `src/routing.rs`): the
bucket of the contact's id absorbs the timeout. -/
def on_resp_timeout {Addr : Type} [DecidableEq Addr] (t : Table Addr)
    (addr_id : AddrId Addr) (config : Config)
    (tx_manager : MsgBuffer.Manager Addr) (msg_buffer : MsgBuffer.Buffer Addr)
    (now : Nat) :
    Table Addr × MsgBuffer.Manager Addr × MsgBuffer.Buffer Addr :=
  match addr_id.id with
  | none => (t, tx_manager, msg_buffer)
  | some node_id =>
    let idx := t.buckets.findIdx (fun b => b.containsId node_id)
    match t.buckets.get? idx with
    | none => (t, tx_manager, msg_buffer)
    | some bucket =>
      let r := bucket.on_resp_timeout addr_id config tx_manager msg_buffer now
      ({ t with buckets := t.buckets.set idx r.1 }, r.2.1, r.2.2)

/-- Table timeout (`Table::timeout` in `src/routing.rs`): the earliest
expected-change deadline. -/
def timeoutL {Addr : Type} (t : Table Addr) : Option Nat :=
  (t.buckets.map Bucket.expected_change_deadline).min?

/-- Refresh processing (`Table::on_timeout` in `src/routing.rs`): every
bucket whose expected-change deadline has passed gets the deadline reset
and a lookup started toward a random id in its range (the random draw per
bucket is the oracle `rand`). -/
def on_timeout {Addr : Type} (t : Table Addr) (config : Config)
    (tx_manager : MsgBuffer.Manager Addr) (msg_buffer : MsgBuffer.Buffer Addr)
    (find_node_ops : List (LFindNodeOp Addr)) (rand : Bucket Addr → NodeId)
    (now : Nat) :
    Table Addr × MsgBuffer.Manager Addr × MsgBuffer.Buffer Addr ×
      List (LFindNodeOp Addr) :=
  let target_ids := (t.buckets.filter (fun b =>
    decide (b.expected_change_deadline ≤ now))).map rand
  let t := { t with buckets := t.buckets.map (fun b =>
    if b.expected_change_deadline ≤ now then
      { b with expected_change_deadline := now + EXPECT_CHANGE_INTERVAL }
    else b) }
  target_ids.foldl (fun acc target_id =>
    let r := acc.1.find_node target_id config acc.2.1 acc.2.2.1 acc.2.2.2 []
      now
    (acc.1, r.1, r.2.1, r.2.2)) (t, tx_manager, msg_buffer, find_node_ops)

end Table

/-- States of the legacy routing table reachable from construction by
receive merges, response timeouts and refresh timeouts, the lifecycle
described by the spec.  Construction (`Table::new`) is the base table
with a single full-range bucket followed by `try_insert` steps, which are
therefore separate constructors. -/
inductive Reachable {Addr : Type} [DecidableEq Addr] :
    Table Addr → Prop where
  | base (pivot : NodeId) (max_nodes_per_bucket : Nat) (now : Nat) :
      Reachable { pivot := pivot
                  buckets := [Bucket.new NodeId.min NodeId.max
                    max_nodes_per_bucket now]
                  max_nodes_per_bucket := max_nodes_per_bucket }
  | tryInsert {t : Table Addr} (h : Reachable t) (addr_id : AddrId Addr)
      (now : Nat) : Reachable (t.try_insert addr_id now)
  | onMsgReceived {t : Table Addr} (h : Reachable t) (addr_id : AddrId Addr)
      (kind : Kind) (config : Config) (tx_manager : MsgBuffer.Manager Addr)
      (msg_buffer : MsgBuffer.Buffer Addr) (now : Nat) :
      Reachable (t.on_msg_received addr_id kind config tx_manager msg_buffer
        now).1
  | onRespTimeout {t : Table Addr} (h : Reachable t) (addr_id : AddrId Addr)
      (config : Config) (tx_manager : MsgBuffer.Manager Addr)
      (msg_buffer : MsgBuffer.Buffer Addr) (now : Nat) :
      Reachable (t.on_resp_timeout addr_id config tx_manager msg_buffer
        now).1
  | onTimeout {t : Table Addr} (h : Reachable t) (config : Config)
      (tx_manager : MsgBuffer.Manager Addr)
      (msg_buffer : MsgBuffer.Buffer Addr)
      (find_node_ops : List (LFindNodeOp Addr))
      (rand : Bucket Addr → NodeId) (now : Nat) :
      Reachable (t.on_timeout config tx_manager msg_buffer find_node_ops
        rand now).1

/-- Set-level reading of a bucket's inclusive range. -/
def InRange {Addr : Type} (b : Bucket Addr) (i : NodeId) : Prop :=
  b.lo ≤ i ∧ i ≤ b.hi

/-- Disjointness of the ranges of two buckets. -/
def RangesDisjoint {Addr : Type} (b c : Bucket Addr) : Prop :=
  ∀ i : NodeId, InRange b i → ¬ InRange c i

/-- The partition statement of the spec for the legacy routing table: the
bucket ranges are pairwise disjoint and their union is the full id space
`[Id::min, Id::max]`. -/
def RangesPartition {Addr : Type} (t : Table Addr) : Prop :=
  List.Pairwise RangesDisjoint t.buckets ∧
  ∀ i : NodeId, ∃ b ∈ t.buckets, InRange b i

/-- Range of a bucket as a pair of bounds. -/
def rangeOf {Addr : Type} (b : Bucket Addr) : NodeId × NodeId := (b.lo, b.hi)

/-- Membership of an id in an inclusive range pair. -/
def InR (r : NodeId × NodeId) (i : NodeId) : Prop := r.1 ≤ i ∧ i ≤ r.2

/-- Disjointness of two inclusive range pairs. -/
def RDisj (r s : NodeId × NodeId) : Prop := ∀ i, InR r i → ¬ InR s i

/-- The partition invariant at the level of ranges: pairwise disjoint,
covering the id space, with the pivot inside the last range. -/
def InvR (pivot : NodeId) (rs : List (NodeId × NodeId)) : Prop :=
  List.Pairwise RDisj rs ∧ (∀ i : NodeId, ∃ r ∈ rs, InR r i) ∧
  (∃ last, rs.getLast? = some last ∧ InR last pivot)

/-- The strengthened table invariant: the bucket ranges satisfy the
range-level partition invariant around the pivot. -/
def Inv {Addr : Type} (t : Table Addr) : Prop :=
  InvR t.pivot (t.buckets.map rangeOf)

end Legacy

/-- Example node state for claim C1: no transactions, one bucket with
refresh deadline 100, pivot re-lookup deadline 5. -/
def exC1Node : Node Nat :=
  { config := Config.new ⟨0, idSize_pos⟩
    routing_table :=
      { pivot := ⟨0, idSize_pos⟩
        buckets := [{ lo := NodeId.min, hi := NodeId.max, nodes := []
                      refresh_deadline := 100 }] }
    find_pivot_id_deadline := 5
    tx_manager := Transactions.default
    find_node_ops := [] }

/-- Example table for claim C2: a freshly constructed empty table around
pivot zero. -/
def exC2Table : CbTable Nat := CbTable.new ⟨0, idSize_pos⟩ 0

/-- Example contact for claim C2. -/
def exC2AddrId : AddrId Nat := ⟨0, ⟨42, by norm_num [idSize, idBits]⟩⟩

/-- Example transaction store for claim C3: 65,535 held transactions whose
ids are `0` through `65534`; id `65535` is free. -/
def exC3Txs : Transactions Nat :=
  ⟨(List.range 65535).map (fun i =>
    { addr_opt_id := ⟨0, none⟩
      tx_id := ⟨i % 65536, Nat.mod_lt i (by decide)⟩
      deadline := 0 })⟩

/-- Example node state for claim C3 holding `exC3Txs`. -/
def exC3Node : Node Nat :=
  { config := Config.new ⟨0, idSize_pos⟩
    routing_table := CbTable.new ⟨0, idSize_pos⟩ 0
    find_pivot_id_deadline := 0
    tx_manager := exC3Txs
    find_node_ops := [] }

/-- Example node state for the claim C3 witness: no held transactions. -/
def exC3WNode : Node Nat :=
  { config := Config.new ⟨0, idSize_pos⟩
    routing_table := CbTable.new ⟨0, idSize_pos⟩ 0
    find_pivot_id_deadline := 0
    tx_manager := Transactions.default
    find_node_ops := [] }

/-- Example node state for claim C4: one transaction whose deadline has
already passed, pivot re-lookup deadline far in the future. -/
def exC4Node : Node Nat :=
  { config := Config.new ⟨0, idSize_pos⟩
    routing_table := CbTable.new ⟨0, idSize_pos⟩ 0
    find_pivot_id_deadline := 1000
    tx_manager := ⟨[{ addr_opt_id := ⟨5, some ⟨42, by norm_num [idSize, idBits]⟩⟩
                      tx_id := ⟨7, by decide⟩
                      deadline := 3 }]⟩
    find_node_ops := [] }

/-- Example message value for claim C10: a well-formed query envelope
(`y = q`). -/
def exC10Value : BValue := BValue.dict [([121], BValue.bytes [113])]

/-- Example node state for claim C10. -/
def exC10Node : Node Nat :=
  { config := Config.new ⟨0, idSize_pos⟩
    routing_table := CbTable.new ⟨0, idSize_pos⟩ 0
    find_pivot_id_deadline := 0
    tx_manager := Transactions.default
    find_node_ops := [] }

/-- Claim C8: for every remote-node record and every instant `t`, the
derived liveness state is Good exactly when `t` is before the response
deadline or before the query deadline; Bad exactly when neither deadline
is in the future and karma is below `-2`; and Questionable in every
remaining case. -/
theorem c8_state_with_now_characterization (Addr : Type)
    (n : routing.Node Addr) (t : Nat) :
    (n.state_with_now t = .good ↔
      (t < n.next_response_deadline ∨ t < n.next_query_deadline)) ∧
    (n.state_with_now t = .bad ↔
      (¬ (t < n.next_response_deadline ∨ t < n.next_query_deadline) ∧
        n.karma < -2)) ∧
    (n.state_with_now t = .questionable ↔
      (¬ (t < n.next_response_deadline ∨ t < n.next_query_deadline) ∧
        ¬ n.karma < -2)) := by
  unfold routing.Node.state_with_now
  split_ifs with h1 h2 h3 <;> simp_all

/-- Claim C9: `routing::Node::on_msg_received` behaves as specified for
each message kind — a response clears a matching ping, renews the
response deadline and raises karma capped at 3; a query renews the query
deadline only; an error clears a matching ping, renews the response
deadline and lowers karma saturating at the `i8` minimum; an unknown kind
clears a matching ping and lowers karma saturating. -/
theorem c9_on_msg_received_characterization (Addr : Type)
    (n : routing.Node Addr) (tx_id : Option TxId) (now : Nat) :
    (n.on_msg_received .response tx_id now =
      { addr_id := n.addr_id
        karma := Min.min (n.karma + 1) 3
        next_response_deadline := now + routing.TIMEOUT_INTERVAL
        next_query_deadline := n.next_query_deadline
        ping_tx_id := if tx_id.isSome ∧ n.ping_tx_id = tx_id then none
          else n.ping_tx_id }) ∧
    (n.on_msg_received .query tx_id now =
      { n with next_query_deadline := now + routing.TIMEOUT_INTERVAL }) ∧
    (n.on_msg_received .error tx_id now =
      { addr_id := n.addr_id
        karma := Max.max (n.karma - 1) (-128)
        next_response_deadline := now + routing.TIMEOUT_INTERVAL
        next_query_deadline := n.next_query_deadline
        ping_tx_id := if tx_id.isSome ∧ n.ping_tx_id = tx_id then none
          else n.ping_tx_id }) ∧
    (∀ s, n.on_msg_received (.unknown s) tx_id now =
      { addr_id := n.addr_id
        karma := Max.max (n.karma - 1) (-128)
        next_response_deadline := n.next_response_deadline
        next_query_deadline := n.next_query_deadline
        ping_tx_id := if tx_id.isSome ∧ n.ping_tx_id = tx_id then none
          else n.ping_tx_id }) := by
  have hping : n.clearMatchingPing tx_id =
      { n with ping_tx_id := if tx_id.isSome ∧ n.ping_tx_id = tx_id then none
          else n.ping_tx_id } := by
    unfold routing.Node.clearMatchingPing
    rcases tx_id with _ | t
    · simp
    · rcases hp : n.ping_tx_id with _ | p
      · simp only [hp]
        simp
        rw [← hp]
      · by_cases hpt : p = t <;> simp only [hp, hpt] <;> simp [hpt]
        rw [← hp]
  refine ⟨?_, ?_, ?_, ?_⟩
  · simp only [routing.Node.on_msg_received, hping]
    simp [routing.satAdd1, routing.Node.mk.injEq]
    omega
  · simp [routing.Node.on_msg_received]
  · simp only [routing.Node.on_msg_received, hping]
    simp [routing.satSub1, routing.Node.mk.injEq]
  · intro s
    simp only [routing.Node.on_msg_received, hping]
    simp [routing.satSub1, routing.Node.mk.injEq]

/-- Claim C5: a query authored via `write_query` enters the outbound FIFO
carrying its transaction id and timeout, the manager's held transactions
are unchanged at authoring time, and the transaction built when the
datagram is dequeued has its deadline computed from the dequeue time plus
the query timeout. -/
theorem c5_write_query_defers_transaction (Addr : Type)
    (b : MsgBuffer.Buffer Addr) (argsVal : BValue) (methodName : List Byte)
    (addr_opt_id : AddrOptId Addr) (timeout : Nat)
    (client_version : Option (List Byte)) (mgr : MsgBuffer.Manager Addr) :
    let r := b.write_query argsVal methodName addr_opt_id timeout
      client_version mgr
    r.2.1.outbound = b.outbound ++
      [{ tx_id := some r.1, timeout := timeout, addr_opt_id := addr_opt_id
         msg_data := MsgBuffer.MsgData.queryMsg (some argsVal) methodName
           (MsgBuffer.txIdBeBytes r.1) client_version }] ∧
    r.2.1.inbound = b.inbound ∧
    r.2.2.transactions = mgr.transactions ∧
    (∀ popNow : Nat,
      MsgBuffer.OutboundMsg.into_transaction
        { tx_id := some r.1, timeout := timeout, addr_opt_id := addr_opt_id
          msg_data := MsgBuffer.MsgData.queryMsg (some argsVal) methodName
            (MsgBuffer.txIdBeBytes r.1) client_version } popNow =
        some { tx_id := r.1, addr_opt_id := addr_opt_id
               deadline := popNow + timeout }) := by
  exact ⟨rfl, rfl, rfl, fun popNow => rfl⟩

/-- Claim C10: every successful `on_recv` call yields a `ReadEvent` whose
transaction id is `None`, for responses, errors and queries alike, so the
`ReadEvent::tx_id` accessor never yields a transaction id. -/
theorem c10_read_event_tx_id_none (Addr : Type) [DecidableEq Addr]
    (n : Node Addr) (value : BValue) (addr : Addr) (now : Nat)
    (n2 : Node Addr) (ev : ReadEvent Addr)
    (h : n.on_recv_value value addr now = .ok (n2, ev)) :
    ev.tx_id = none := by
  unfold Node.on_recv_value at h
  repeat' split at h
  all_goals first
    | exact Except.noConfusion h
    | (cases h; rfl)

/-- Witness for claim C10: a concrete successful query receive returns an
event with no transaction id. -/
theorem c10_witness :
    ReadEvent.tx_id ({ addr_opt_id := ⟨0, none⟩, tx_id := none, msg := MsgEvent.query exC10Value } : ReadEvent Nat) = none :=
  c10_read_event_tx_id_none Nat exC10Node exC10Value 0 0 exC10Node
    { addr_opt_id := ⟨0, none⟩, tx_id := none, msg := .query exC10Value } rfl

/-- Counterexample for claim C1: on a node whose pivot re-lookup deadline
(5) is earlier than the routing table's timeout (100) and whose
transaction manager has no timeout, `Node::timeout` does not return the
minimum of the three values — `find_pivot_id_deadline` is not
consulted. -/
theorem c1_counterexample :
    Node.timeout exC1Node ≠
      ([exC1Node.tx_manager.timeoutTx, exC1Node.routing_table.timeoutT,
        some exC1Node.find_pivot_id_deadline].filterMap (fun x => x)).min? := by
  decide

/-- Claim C1 as amended: `Node::timeout` returns the minimum of the
transaction manager's timeout and the routing table's timeout only
(`None` when neither is defined); the pivot re-lookup deadline
`find_pivot_id_deadline` does not participate. -/
theorem c1_timeout_amended (Addr : Type) (n : Node Addr) :
    n.timeout = ([n.tx_manager.timeoutTx,
      n.routing_table.timeoutT].filterMap (fun x => x)).min? ∧
    (∀ d : Nat, Node.timeout { n with find_pivot_id_deadline := d } =
      n.timeout) :=
  ⟨rfl, fun _ => rfl⟩

/-- Counterexample for claim C4: on a node holding a transaction whose
deadline (3) has passed at `now = 10`, `on_timeout` leaves the
transaction in place — it does not pop timed-out transactions. -/
theorem c4_counterexample :
    ¬ ((Node.on_timeout_with_now exC4Node 10).tx_manager.txs.all
      (fun tx => decide (10 < tx.deadline)) = true) := by
  decide

/-- Claim C4 as amended: `on_timeout(now)` only performs the pivot
re-lookup step — the transaction manager is untouched, the deadline is
reset to `now + 15 min` exactly when it had passed, and in that case a
pivot find-node operation is appended; popping timed-out transactions is
the separate `pop_timed_out_tx(now)`, which pops one transaction whose
deadline has passed, feeds it to the routing table's timeout merge and to
every find-node operation, and purges terminal operations. -/
theorem c4_on_timeout_amended (Addr : Type) [DecidableEq Addr]
    (n : Node Addr) (now : Nat) (tx : Transaction Addr)
    (mgr : Transactions Addr)
    (h : n.tx_manager.pop_timed_out_tx now = some (tx, mgr)) :
    ((n.on_timeout_with_now now).tx_manager = n.tx_manager ∧
     (n.on_timeout_with_now now).find_pivot_id_deadline =
       (if n.find_pivot_id_deadline ≤ now then now + FIND_LOCAL_ID_INTERVAL
        else n.find_pivot_id_deadline) ∧
     (n.on_timeout_with_now now).find_node_ops =
       (if n.find_pivot_id_deadline ≤ now then
          n.find_node_ops ++ [n.find_node n.routing_table.pivot [] now]
        else n.find_node_ops)) ∧
    ((n.pop_timed_out_tx now).1 = some tx ∧
     (n.pop_timed_out_tx now).2.tx_manager = mgr ∧
     (n.pop_timed_out_tx now).2.find_node_ops =
       ((n.find_node_ops.map (fun op => op.handle tx .timeout)).filter
         (fun op => !op.is_done)) ∧
     (n.pop_timed_out_tx now).2.routing_table =
       (match tx.addr_opt_id.id with
        | some node_id => routing.on_timeout n.routing_table
            ⟨tx.addr_opt_id.addr, node_id⟩ tx.tx_id
        | none => n.routing_table)) := by
  constructor
  · unfold Node.on_timeout_with_now Node.find_node_pivot
    split_ifs with hd <;> simp
  · unfold Node.pop_timed_out_tx
    rw [h]
    exact ⟨rfl, rfl, rfl, rfl⟩

/-- Witness for claim C4: popping at time 10 on a node holding a
transaction with deadline 3 returns that transaction. -/
theorem c4_witness :
    (Node.pop_timed_out_tx exC4Node 10).1 =
      some { addr_opt_id := ⟨5, some ⟨42, by norm_num [idSize, idBits]⟩⟩
             tx_id := ⟨7, by decide⟩
             deadline := 3 } :=
  (c4_on_timeout_amended Nat exC4Node 10
    { addr_opt_id := ⟨5, some ⟨42, by norm_num [idSize, idBits]⟩⟩
      tx_id := ⟨7, by decide⟩
      deadline := 3 }
    ⟨[]⟩ (by decide)).2.1

theorem probeTxId_some_not_contains {Addr : Type} (m : Transactions Addr) :
    ∀ (fuel : Nat) (num i : TxId), Node.probeTxId m fuel num = some i →
      m.containsId i = false := by
  intro fuel
  induction fuel with
  | zero => intro num i h; exact Option.noConfusion h
  | succ f ih =>
    intro num i h
    unfold Node.probeTxId at h
    by_cases hc : m.containsId num
    · rw [hc] at h
      exact ih (num + 1) i (by simpa using h)
    · rw [Bool.eq_false_iff.mpr hc] at h
      simp at h
      rw [← h]
      exact Bool.eq_false_iff.mpr hc

theorem probeTxId_finds {Addr : Type} (m : Transactions Addr) :
    ∀ (fuel : Nat) (num : TxId),
      (∃ k : Nat, k < fuel ∧ m.containsId (num + (k : TxId)) = false) →
      (Node.probeTxId m fuel num).isSome := by
  intro fuel
  induction fuel with
  | zero =>
    rintro num ⟨k, hk, _⟩
    omega
  | succ f ih =>
    rintro num ⟨k, hk, hfree⟩
    unfold Node.probeTxId
    by_cases hc : m.containsId num
    · rw [hc]
      simp only [Bool.not_true, Bool.false_eq_true, if_false]
      apply ih
      rcases k with _ | j
      · exfalso
        rw [show ((0 : Nat) : TxId) = 0 from rfl, add_zero] at hfree
        rw [hc] at hfree
        exact Bool.noConfusion hfree
      · refine ⟨j, by omega, ?_⟩
        rw [← hfree]
        congr 1
        push_cast
        ring
    · rw [Bool.eq_false_iff.mpr hc]
      simp

theorem txs_exists_free {Addr : Type} (m : Transactions Addr)
    (h : m.len < 65536) (num : TxId) :
    ∃ k : Nat, k < 65536 ∧ m.containsId (num + (k : TxId)) = false := by
  by_contra hno
  push_neg at hno
  have hall : ∀ i : TxId, m.containsId i = true := by
    intro i
    have hlt : (i - num).val < 65536 := (i - num).isLt
    have hk := hno (i - num).val hlt
    rw [Bool.ne_false_iff] at hk
    have heq : num + (((i - num).val : Nat) : TxId) = i := by
      rw [Fin.cast_val_eq_self (i - num)]
      ring_nf
    rwa [heq] at hk
  have hsub : (Finset.univ : Finset TxId) ⊆
      (m.txs.map Transaction.tx_id).toFinset := by
    intro i _
    rw [List.mem_toFinset, List.mem_map]
    have := hall i
    unfold Transactions.containsId at this
    rw [List.any_eq_true] at this
    obtain ⟨tx, htx, hid⟩ := this
    exact ⟨tx, htx, by simpa using hid⟩
  have hcard := Finset.card_le_card hsub
  rw [Finset.card_univ] at hcard
  have h1 : Fintype.card TxId = 65536 := Fintype.card_fin 65536
  have h2 : (m.txs.map Transaction.tx_id).toFinset.card ≤
      (m.txs.map Transaction.tx_id).length := List.toFinset_card_le _
  rw [List.length_map] at h2
  unfold Transactions.len at h
  omega

/-- Counterexample for claim C3: with 65,535 of the 65,536 transaction ids
held, `next_tx_id` fails even though id 65535 is free — it does not fail
only when all 65,536 ids are in use. -/
theorem c3_counterexample :
    Node.next_tx_id exC3Node ⟨0, by decide⟩ = none ∧
    ¬ (∀ i : TxId, exC3Node.tx_manager.containsId i = true) := by
  have hlen : exC3Node.tx_manager.len = 65535 := by
    show (exC3Txs.txs).length = 65535
    unfold exC3Txs
    rw [List.length_map, List.length_range]
  constructor
  · unfold Node.next_tx_id
    rw [hlen]
    simp
  · intro hall
    obtain ⟨k, _, hfree⟩ := txs_exists_free exC3Node.tx_manager (by omega)
      ⟨0, by decide⟩
    rw [hall _] at hfree
    exact Bool.noConfusion hfree

/-- Claim C3 as amended: whenever at most 65,535 transactions are held,
`next_tx_id` fails exactly when 65,535 (that is, `u16::MAX`) transactions
are held — one id short of the full 65,536 — and any id it returns is not
currently held. -/
theorem c3_next_tx_id_amended (Addr : Type) (n : Node Addr) (num : TxId)
    (h : n.tx_manager.len ≤ 65535) :
    (n.next_tx_id num = none ↔ n.tx_manager.len = 65535) ∧
    (∀ i : TxId, n.next_tx_id num = some i →
      n.tx_manager.containsId i = false) := by
  constructor
  · constructor
    · intro hnone
      by_contra hne
      have hlt : n.tx_manager.len < 65535 := by omega
      unfold Node.next_tx_id at hnone
      rw [if_neg hne] at hnone
      have hfound := probeTxId_finds n.tx_manager Node.TX_PROBE_FUEL num
        (txs_exists_free n.tx_manager (by omega) num)
      rw [hnone] at hfound
      exact Bool.noConfusion hfound
    · intro hfull
      unfold Node.next_tx_id
      rw [if_pos hfull]
  · intro i hsome
    unfold Node.next_tx_id at hsome
    by_cases hfull : n.tx_manager.len = 65535
    · rw [if_pos hfull] at hsome
      exact Option.noConfusion hsome
    · rw [if_neg hfull] at hsome
      exact probeTxId_some_not_contains n.tx_manager _ num i hsome

/-- Witness for claim C3: on a node with no held transactions the amended
characterization holds at the concrete start id 3. -/
theorem c3_witness :
    (Node.next_tx_id exC3WNode ⟨3, by decide⟩ = none ↔
      exC3WNode.tx_manager.len = 65535) ∧
    (∀ i : TxId, Node.next_tx_id exC3WNode ⟨3, by decide⟩ = some i →
      exC3WNode.tx_manager.containsId i = false) :=
  c3_next_tx_id_amended Nat exC3WNode ⟨3, by decide⟩ (by decide)

theorem distLe_trans {Addr : Type} (id : NodeId) :
    ∀ a b c : AddrId Addr,
      decide (a.id.distance id ≤ b.id.distance id) = true →
      decide (b.id.distance id ≤ c.id.distance id) = true →
      decide (a.id.distance id ≤ c.id.distance id) = true := by
  intro a b c hab hbc
  simp only [decide_eq_true_eq] at *
  omega

theorem distLe_total {Addr : Type} (id : NodeId) :
    ∀ a b : AddrId Addr,
      (decide (a.id.distance id ≤ b.id.distance id) ||
       decide (b.id.distance id ≤ a.id.distance id)) = true := by
  intro a b
  simp only [Bool.or_eq_true, decide_eq_true_eq]
  omega

/-- Claim C7: `find_neighbors(target, now)` yields every record held in
every bucket, sorted ascending by XOR distance of the record's id to the
target; the first 8 yielded entries have distance at most that of every
later entry, and ties are broken stably — records at each fixed distance
appear exactly as in bucket order. -/
theorem c7_find_neighbors_sorted (Addr : Type) (t : CbTable Addr)
    (id : NodeId) (now : Nat) :
    (routing.find_neighbors t id now).Perm
      ((t.buckets.map CbBucket.nodes).flatten.map routing.Node.addr_id) ∧
    List.Pairwise (fun a b : AddrId Addr =>
      a.id.distance id ≤ b.id.distance id)
      (routing.find_neighbors t id now) ∧
    (∀ d : Nat,
      (routing.find_neighbors t id now).filter
        (fun a => decide (a.id.distance id = d)) =
      ((t.buckets.map CbBucket.nodes).flatten.map
        routing.Node.addr_id).filter
        (fun a => decide (a.id.distance id = d))) ∧
    (∀ x ∈ (routing.find_neighbors t id now).take 8,
     ∀ y ∈ (routing.find_neighbors t id now).drop 8,
      x.id.distance id ≤ y.id.distance id) := by
  have hperm : (routing.find_neighbors t id now).Perm
      ((t.buckets.map CbBucket.nodes).flatten.map routing.Node.addr_id) :=
    List.mergeSort_perm _ _
  have hsorted : List.Pairwise (fun a b : AddrId Addr =>
      decide (a.id.distance id ≤ b.id.distance id) = true)
      (routing.find_neighbors t id now) :=
    List.sorted_mergeSort (distLe_trans id) (distLe_total id) _
  have hsorted2 : List.Pairwise (fun a b : AddrId Addr =>
      a.id.distance id ≤ b.id.distance id)
      (routing.find_neighbors t id now) :=
    hsorted.imp (fun h => of_decide_eq_true h)
  refine ⟨hperm, hsorted2, ?_, ?_⟩
  · intro d
    set all := ((t.buckets.map CbBucket.nodes).flatten.map
      routing.Node.addr_id) with hall
    set p : AddrId Addr → Bool := fun a => decide (a.id.distance id = d)
      with hp
    have hcpair : List.Pairwise (fun a b : AddrId Addr =>
        decide (a.id.distance id ≤ b.id.distance id) = true)
        (all.filter p) := by
      apply List.pairwise_of_forall_mem_list
      intro a ha b hb
      have ha0 := List.of_mem_filter ha
      have hb0 := List.of_mem_filter hb
      rw [hp] at ha0 hb0
      have ha2 := of_decide_eq_true ha0
      have hb2 := of_decide_eq_true hb0
      simp only [decide_eq_true_eq]
      omega
    have hcsub : (all.filter p).Sublist (routing.find_neighbors t id now) :=
      List.sublist_mergeSort (distLe_trans id) (distLe_total id) hcpair
        (List.filter_sublist all)
    have hcsub2 : (all.filter p).Sublist
        ((routing.find_neighbors t id now).filter p) := by
      have h1 := List.Sublist.filter p hcsub
      rwa [List.filter_filter, show (fun a => p a && p a) = p from
        funext (fun a => Bool.and_self (p a))] at h1
    have hlen : (all.filter p).length =
        ((routing.find_neighbors t id now).filter p).length :=
      ((hperm.filter p).length_eq).symm
    exact (hcsub2.eq_of_length hlen).symm
  · intro x hx y hy
    have := (List.pairwise_append.mp
      ((List.take_append_drop 8 (routing.find_neighbors t id now)).symm ▸
        hsorted2)).2.2
    exact this x hx y hy

/-- Counterexample for claim C2: receiving a message of `Unknown` type
from a fresh contact creates a new remote-node record in the current
routing module — the empty table (zero records) ends up holding one
record after the merge. -/
theorem c2_counterexample :
    (exC2Table.buckets.map (fun b => b.nodes.length) = [0]) ∧
    ((routing.on_recv exC2Table exC2AddrId (Ty.unknown [122]) none 900
      0).buckets.map (fun b => b.nodes.length) = [1]) := by
  constructor
  · decide
  · decide

/-- Claim C2 as amended: in the current routing module (`routing::on_recv`
of `src/lib.rs`) the creation of a new record does not depend on the
message type at all — when the sender is unknown to the table, the merge
gives the same table for every kind, `Unknown` included, so `Unknown`
messages may create records; only the superseded `Bucket::on_msg_received`
of `src/routing.rs` skips record creation for `Unknown` kinds. -/
theorem c2_on_recv_amended (Addr : Type) [DecidableEq Addr]
    (b : Legacy.Bucket Addr) (max_nodes_per_bucket : Nat)
    (laddr_id : Legacy.AddrId Addr) (s : List Byte) (config : Config)
    (mgr : MsgBuffer.Manager Addr) (buf : MsgBuffer.Buffer Addr)
    (t : CbTable Addr) (addr_id : AddrId Addr) (k1 k2 : Ty)
    (tx1 tx2 : Option TxId) (deadline now m : Nat)
    (h1 : b.nodes.find? (fun n => n.addr_id = laddr_id) = none)
    (h2 : ∀ bb ∈ t.buckets, ∀ nn ∈ bb.nodes, nn.addr_id ≠ addr_id) :
    b.on_msg_received max_nodes_per_bucket laddr_id (.unknown s) config mgr
      buf now = (b, mgr, buf) ∧
    routing.on_recv t addr_id k1 tx1 deadline m =
      routing.on_recv t addr_id k2 tx2 deadline m := by
  constructor
  · unfold Legacy.Bucket.on_msg_received
    rw [h1]
    simp
  · unfold routing.on_recv
    rcases hfb : t.findBucket addr_id.id with _ | b0
    · simp only [hfb]
    · have hb0 : b0 ∈ t.buckets := by
        unfold CbTable.findBucket at hfb
        exact List.get?_mem hfb
      have hany : b0.nodes.any (fun n => decide (n.addr_id = addr_id)) =
          false := by
        rw [List.any_eq_false]
        intro n hn
        simpa using h2 b0 hb0 n hn
      simp only [hfb, hany, Bool.false_eq_true, if_false]

/-- Witness for claim C2: at a concrete empty legacy bucket and the empty
current table, the unknown-kind merge is the identity on the legacy
bucket and the current merge does not depend on the message kind. -/
theorem c2_witness :
    Legacy.Bucket.on_msg_received
      ({ lo := NodeId.min, hi := NodeId.max, nodes := []
         replacement_nodes := [], expected_change_deadline := 0 } :
        Legacy.Bucket Nat) 8
      ⟨0, some ⟨7, by norm_num [idSize, idBits]⟩⟩ (.unknown [122])
      (Config.new ⟨0, idSize_pos⟩) ⟨0, []⟩ ⟨[], []⟩ 0 =
      ({ lo := NodeId.min, hi := NodeId.max, nodes := []
         replacement_nodes := [], expected_change_deadline := 0 },
       ⟨0, []⟩, ⟨[], []⟩) ∧
    routing.on_recv exC2Table exC2AddrId (Ty.unknown [122]) none 900 0 =
      routing.on_recv exC2Table exC2AddrId Ty.query none 900 0 :=
  c2_on_recv_amended Nat
    { lo := NodeId.min, hi := NodeId.max, nodes := []
      replacement_nodes := [], expected_change_deadline := 0 } 8
    ⟨0, some ⟨7, by norm_num [idSize, idBits]⟩⟩ [122]
    (Config.new ⟨0, idSize_pos⟩) ⟨0, []⟩ ⟨[], []⟩
    exC2Table exC2AddrId (Ty.unknown [122]) Ty.query none none 900 0 0
    (by decide) (by decide)

namespace Legacy

theorem middle_ge {lo hi : NodeId} (h : lo ≤ hi) : lo ≤ NodeId.middle hi lo := by
  rw [Fin.le_def] at *
  show lo.val ≤ (hi.val + lo.val) / 2
  omega

theorem middle_lt {lo hi : NodeId} (h : lo < hi) : NodeId.middle hi lo < hi := by
  rw [Fin.lt_def] at *
  show (hi.val + lo.val) / 2 < hi.val
  omega

theorem next_val_of_lt {a b : NodeId} (h : a < b) :
    (NodeId.next a).val = a.val + 1 := by
  rw [Fin.lt_def] at h
  have hb : b.val < idSize := b.isLt
  unfold NodeId.next
  rw [dif_pos (by omega)]

theorem containsId_iff {Addr : Type} (b : Bucket Addr) (i : NodeId) :
    b.containsId i = true ↔ InR (rangeOf b) i := by
  unfold Bucket.containsId InR rangeOf
  simp

theorem invr_nonempty {p : NodeId} {rs : List (NodeId × NodeId)}
    (h : InvR p rs) : rs ≠ [] := by
  obtain ⟨-, hcov, -⟩ := h
  obtain ⟨r, hr, -⟩ := hcov p
  exact List.ne_nil_of_mem hr

theorem invr_pivot_last {p : NodeId} {rs : List (NodeId × NodeId)}
    {idx : Nat} {r : NodeId × NodeId} (h : InvR p rs)
    (hget : rs.get? idx = some r) (hp : InR r p) : idx = rs.length - 1 := by
  obtain ⟨hpw, -, last, hlast, hlastp⟩ := h
  obtain ⟨hidx, hgeteq⟩ := List.get?_eq_some.mp hget
  by_contra hne
  have hlt : idx < rs.length - 1 := by omega
  rw [List.getLast?_eq_get?] at hlast
  obtain ⟨hlen1, hlasteq⟩ := List.get?_eq_some.mp hlast
  have hd := List.pairwise_iff_get.mp hpw ⟨idx, hidx⟩ ⟨rs.length - 1, hlen1⟩
    (by simpa using hlt)
  rw [hgeteq, hlasteq] at hd
  exact hd p hp hlastp

theorem invr_cover_split {lo hi : NodeId} (hlt : lo < hi) (i : NodeId) :
    InR (lo, hi) i ↔
      (InR (lo, NodeId.middle hi lo) i ∨
       InR ((NodeId.middle hi lo).next, hi) i) := by
  have hnext := next_val_of_lt (middle_lt hlt)
  have hmid : (NodeId.middle hi lo).val = (hi.val + lo.val) / 2 := rfl
  have hlt2 : lo.val < hi.val := Fin.lt_def.mp hlt
  unfold InR
  simp only [Fin.le_def]
  rw [hnext, hmid]
  omega

theorem invr_halves_disjoint {lo hi : NodeId} (hlt : lo < hi) :
    RDisj (lo, NodeId.middle hi lo) ((NodeId.middle hi lo).next, hi) ∧
    RDisj ((NodeId.middle hi lo).next, hi) (lo, NodeId.middle hi lo) := by
  have hnext := next_val_of_lt (middle_lt hlt)
  unfold RDisj InR
  dsimp only
  simp only [Fin.le_def]
  constructor
  · rintro i ⟨h1, h2⟩ ⟨h3, h4⟩
    rw [hnext] at h3
    omega
  · rintro i ⟨h1, h2⟩ ⟨h3, h4⟩
    rw [hnext] at h1
    omega

theorem invr_split_last (p : NodeId) (rs0 : List (NodeId × NodeId))
    (lo hi : NodeId) (h : InvR p (rs0 ++ [(lo, hi)])) (hlt : lo < hi)
    (x y : NodeId × NodeId) (hx : x = (lo, NodeId.middle hi lo))
    (hy : y = ((NodeId.middle hi lo).next, hi)) :
    (InR x p → InvR p (rs0 ++ [y, x])) ∧
    (¬ InR x p → InvR p (rs0 ++ [x, y])) := by
  obtain ⟨hpw, hcov, last, hlast, hlastp⟩ := h
  rw [List.getLast?_concat] at hlast
  obtain rfl : last = (lo, hi) := by
    injection hlast with h2
    exact h2.symm
  have hpw0 : List.Pairwise RDisj rs0 := (List.pairwise_append.mp hpw).1
  have hcross : ∀ a ∈ rs0, RDisj a (lo, hi) := by
    intro a ha
    exact (List.pairwise_append.mp hpw).2.2 a ha (lo, hi) (by simp)
  have hdisj := invr_halves_disjoint hlt
  have hsubx : ∀ i, InR x i → InR (lo, hi) i := by
    intro i hi2
    rw [(invr_cover_split hlt i)]
    exact Or.inl (hx ▸ hi2)
  have hsuby : ∀ i, InR y i → InR (lo, hi) i := by
    intro i hi2
    rw [(invr_cover_split hlt i)]
    exact Or.inr (hy ▸ hi2)
  have hcrossx : ∀ a ∈ rs0, RDisj a x :=
    fun a ha i hai hxi => hcross a ha i hai (hsubx i hxi)
  have hcrossy : ∀ a ∈ rs0, RDisj a y :=
    fun a ha i hai hyi => hcross a ha i hai (hsuby i hyi)
  have hcov2 : ∀ q : List (NodeId × NodeId), (∀ i, InR x i ∨ InR y i →
      (∃ r ∈ q, InR r i)) → ∀ i : NodeId, ∃ r ∈ rs0 ++ q, InR r i := by
    intro q hq i
    obtain ⟨r, hr, hir⟩ := hcov i
    rcases List.mem_append.mp hr with hr0 | hrlast
    · exact ⟨r, List.mem_append_left _ hr0, hir⟩
    · have : r = (lo, hi) := by simpa using hrlast
      subst this
      have := (invr_cover_split hlt i).mp hir
      obtain ⟨r2, hr2, hir2⟩ := hq i (by rw [hx, hy]; exact this)
      exact ⟨r2, List.mem_append_right _ hr2, hir2⟩
  constructor
  · intro hpx
    refine ⟨?_, ?_, x, ?_, hpx⟩
    · rw [List.pairwise_append]
      refine ⟨hpw0, ?_, ?_⟩
      · simp only [List.pairwise_cons, List.mem_singleton,
          List.pairwise_cons]
        refine ⟨fun b hb => ?_, by simp [List.Pairwise]⟩
        subst hb
        exact hx ▸ hy ▸ hdisj.2
      · intro a ha b hb
        rcases List.mem_cons.mp hb with rfl | hb2
        · exact hcrossy a ha
        · have : b = x := by simpa using hb2
          subst this
          exact hcrossx a ha
    · apply hcov2
      intro i hxy
      rcases hxy with hxi | hyi
      · exact ⟨x, by simp, hxi⟩
      · exact ⟨y, by simp, hyi⟩
    · show (rs0 ++ [y, x]).getLast? = some x
      rw [show rs0 ++ [y, x] = (rs0 ++ [y]) ++ [x] by simp]
      exact List.getLast?_concat _
  · intro hpx
    have hpy : InR y p := by
      have hplohi := hlastp
      have := (invr_cover_split hlt p).mp hplohi
      rcases this with h1 | h2
      · exact absurd (hx ▸ h1) hpx
      · exact hy ▸ h2
    refine ⟨?_, ?_, y, ?_, hpy⟩
    · rw [List.pairwise_append]
      refine ⟨hpw0, ?_, ?_⟩
      · simp only [List.pairwise_cons, List.mem_singleton,
          List.pairwise_cons]
        refine ⟨fun b hb => ?_, by simp [List.Pairwise]⟩
        subst hb
        exact hx ▸ hy ▸ hdisj.1
      · intro a ha b hb
        rcases List.mem_cons.mp hb with rfl | hb2
        · exact hcrossx a ha
        · have : b = y := by simpa using hb2
          subst this
          exact hcrossy a ha
    · apply hcov2
      intro i hxy
      rcases hxy with hxi | hyi
      · exact ⟨x, by simp, hxi⟩
      · exact ⟨y, by simp, hyi⟩
    · show (rs0 ++ [x, y]).getLast? = some y
      rw [show rs0 ++ [x, y] = (rs0 ++ [x]) ++ [y] by simp]
      exact List.getLast?_concat _

theorem map_rangeOf_modify {Addr : Type} (f : Bucket Addr → Bucket Addr)
    (hf : ∀ b, rangeOf (f b) = rangeOf b) :
    ∀ (l : List (Bucket Addr)) (idx : Nat),
      (List.modify f idx l).map rangeOf = l.map rangeOf := by
  intro l
  induction l with
  | nil => intro idx; cases idx <;> rfl
  | cons a l ih =>
    intro idx
    cases idx with
    | zero =>
      show rangeOf (f a) :: l.map rangeOf = rangeOf a :: l.map rangeOf
      rw [hf a]
    | succ n =>
      show rangeOf a :: (List.modify f n l).map rangeOf =
        rangeOf a :: l.map rangeOf
      rw [ih n]

theorem sort_node_ids_range {Addr : Type} (b : Bucket Addr) (now : Nat) :
    rangeOf (b.sort_node_ids now) = rangeOf b := rfl

theorem update_deadline_range {Addr : Type} (b : Bucket Addr) (now : Nat) :
    rangeOf (b.update_expected_change_deadline now) = rangeOf b := rfl

theorem ping_range {Addr : Type} (b : Bucket Addr) (config : Config)
    (mgr : MsgBuffer.Manager Addr) (buf : MsgBuffer.Buffer Addr) (now : Nat) :
    rangeOf (b.ping_least_recently_seen_questionable_node config mgr buf
      now).1 = rangeOf b := by
  unfold Bucket.ping_least_recently_seen_questionable_node
  dsimp only
  repeat' split
  all_goals rfl

theorem try_insert_range {Addr : Type} (b : Bucket Addr) (m : Nat)
    (a : AddrId Addr) (now : Nat) :
    rangeOf (b.try_insert m a now) = rangeOf b := by
  unfold Bucket.try_insert
  dsimp only
  repeat' split
  all_goals rfl

theorem on_msg_received_range {Addr : Type} [DecidableEq Addr]
    (b : Bucket Addr) (m : Nat) (a : AddrId Addr) (kind : Kind)
    (config : Config) (mgr : MsgBuffer.Manager Addr)
    (buf : MsgBuffer.Buffer Addr) (now : Nat) :
    rangeOf (b.on_msg_received m a kind config mgr buf now).1 =
      rangeOf b := by
  unfold Bucket.on_msg_received
  dsimp only
  repeat' split
  all_goals first
    | rfl
    | (rw [update_deadline_range, ping_range]; rfl)
    | (rw [ping_range]; rfl)

theorem on_resp_timeout_range {Addr : Type} [DecidableEq Addr]
    (b : Bucket Addr) (a : AddrId Addr) (config : Config)
    (mgr : MsgBuffer.Manager Addr) (buf : MsgBuffer.Buffer Addr)
    (now : Nat) :
    rangeOf (b.on_resp_timeout a config mgr buf now).1 = rangeOf b := by
  unfold Bucket.on_resp_timeout
  dsimp only
  repeat' split
  all_goals first
    | rfl
    | (rw [ping_range]; rfl)

theorem split_range_fst {Addr : Type} (b : Bucket Addr) (m now : Nat) :
    rangeOf (b.split m now).1 = (b.lo, NodeId.middle b.hi b.lo) := rfl

theorem split_range_snd {Addr : Type} (b : Bucket Addr) (m now : Nat) :
    rangeOf (b.split m now).2 = ((NodeId.middle b.hi b.lo).next, b.hi) := rfl

theorem map_rangeOf_set {Addr : Type} :
    ∀ (l : List (Bucket Addr)) (idx : Nat) (x b : Bucket Addr),
      l.get? idx = some b → rangeOf x = rangeOf b →
      (l.set idx x).map rangeOf = l.map rangeOf := by
  intro l
  induction l with
  | nil => intro idx x b hget _; exact Option.noConfusion hget
  | cons a l ih =>
    intro idx x b hget hx
    cases idx with
    | zero =>
      injection hget with hab
      subst hab
      show rangeOf x :: l.map rangeOf = rangeOf a :: l.map rangeOf
      rw [hx]
    | succ n =>
      show rangeOf a :: (l.set n x).map rangeOf = rangeOf a :: l.map rangeOf
      rw [ih n x b hget hx]

theorem foldl_keep_fst {A B γ : Type} (f : A × B → γ → A × B)
    (hf : ∀ acc x, (f acc x).1 = acc.1) :
    ∀ (l : List γ) (acc : A × B), (l.foldl f acc).1 = acc.1 := by
  intro l
  induction l with
  | nil => intro acc; rfl
  | cons x l ih =>
    intro acc
    show (l.foldl f (f acc x)).1 = acc.1
    rw [ih (f acc x), hf acc x]

theorem inv_found_pivot_bucket {Addr : Type} {t : Table Addr} {idx : Nat}
    {bucket : Bucket Addr} {nid : NodeId} (h : Inv t)
    (hget : t.buckets.get? idx = some bucket)
    (hcp : bucket.containsId t.pivot = true)
    (hcn : bucket.containsId nid = true) (hnp : nid ≠ t.pivot) :
    t.buckets.getLast? = some bucket ∧ InR (rangeOf bucket) t.pivot ∧
      bucket.lo < bucket.hi := by
  have hpmem : InR (rangeOf bucket) t.pivot := (containsId_iff _ _).mp hcp
  have hnmem : InR (rangeOf bucket) nid := (containsId_iff _ _).mp hcn
  have hgetm : (t.buckets.map rangeOf).get? idx = some (rangeOf bucket) := by
    rw [List.get?_map, hget]
    rfl
  have hidx := invr_pivot_last h hgetm hpmem
  have hlen : (t.buckets.map rangeOf).length = t.buckets.length :=
    List.length_map _ _
  have hlast : t.buckets.getLast? = some bucket := by
    rw [List.getLast?_eq_get?]
    rw [hidx, hlen] at hget
    exact hget
  have hlt : bucket.lo < bucket.hi := by
    obtain ⟨h1, h2⟩ : bucket.lo ≤ t.pivot ∧ t.pivot ≤ bucket.hi := hpmem
    obtain ⟨h3, h4⟩ : bucket.lo ≤ nid ∧ nid ≤ bucket.hi := hnmem
    rw [Fin.le_def] at h1 h2 h3 h4
    rw [Fin.lt_def]
    rcases Nat.lt_or_ge bucket.lo.val bucket.hi.val with hlt | hge
    · exact hlt
    · exfalso
      apply hnp
      apply Fin.ext
      show nid.val = t.pivot.val
      omega
  exact ⟨hlast, hpmem, hlt⟩

theorem inv_split_branch {Addr : Type} (t : Table Addr)
    (last x1 x2 : Bucket Addr) (hInv : Inv t)
    (hlastget : t.buckets.getLast? = some last)
    (hp : InR (rangeOf last) t.pivot) (hlt : last.lo < last.hi)
    (hx1 : rangeOf x1 = (last.lo, NodeId.middle last.hi last.lo))
    (hx2 : rangeOf x2 = ((NodeId.middle last.hi last.lo).next, last.hi)) :
    (x1.containsId t.pivot = true →
      Inv { t with buckets := t.buckets.dropLast ++ [x2, x1] }) ∧
    (x1.containsId t.pivot = false →
      Inv { t with buckets := t.buckets.dropLast ++ [x1, x2] }) := by
  have hne : t.buckets ≠ [] := by
    intro h0
    rw [h0] at hlastget
    exact Option.noConfusion hlastget
  have hdecomp : t.buckets.dropLast ++ [last] = t.buckets := by
    have h1 := List.dropLast_append_getLast hne
    have h2 : t.buckets.getLast hne = last := by
      have := (List.getLast?_eq_getLast t.buckets hne).symm.trans hlastget
      injection this
    rw [h2] at h1
    exact h1
  have hInv2 : InvR t.pivot ((t.buckets.dropLast.map rangeOf) ++
      [(last.lo, last.hi)]) := by
    have : t.buckets.map rangeOf =
        (t.buckets.dropLast.map rangeOf) ++ [(last.lo, last.hi)] := by
      conv_lhs => rw [← hdecomp]
      rw [List.map_append]
      rfl
    rw [← this]
    exact hInv
  have hsplit := invr_split_last t.pivot (t.buckets.dropLast.map rangeOf)
    last.lo last.hi hInv2 hlt (rangeOf x1) (rangeOf x2) hx1 hx2
  constructor
  · intro hc
    show InvR t.pivot ((t.buckets.dropLast ++ [x2, x1]).map rangeOf)
    rw [List.map_append]
    exact hsplit.1 ((containsId_iff _ _).mp hc)
  · intro hc
    show InvR t.pivot ((t.buckets.dropLast ++ [x1, x2]).map rangeOf)
    rw [List.map_append]
    refine hsplit.2 ?_
    intro hmem
    rw [(containsId_iff _ _).mpr hmem] at hc
    exact Bool.noConfusion hc

theorem inv_try_insert {Addr : Type} (t : Table Addr) (a : AddrId Addr)
    (now : Nat) (h : Inv t) : Inv (t.try_insert a now) := by
  unfold Table.try_insert
  rcases a.id with _ | nid
  · exact h
  · dsimp only
    by_cases hpiv : nid = t.pivot
    · rw [if_pos hpiv]
      exact h
    · rw [if_neg hpiv]
      rcases hget : t.buckets.get? (t.buckets.findIdx
          (fun b => b.containsId nid)) with _ | bucket
      · simp only [hget]
        exact h
      · simp only [hget]
        by_cases hcond : (bucket.containsId t.pivot &&
            decide (bucket.nodes.length ≥ t.max_nodes_per_bucket)) = true
        · rw [if_pos hcond]
          have hcn : bucket.containsId nid = true :=
            @List.findIdx_of_get?_eq_some _ (fun b => b.containsId nid)
              bucket t.buckets hget
          have hcp : bucket.containsId t.pivot = true :=
            (Bool.and_eq_true _ _ |>.mp hcond).1
          obtain ⟨hlast, hpmem, hlt⟩ :=
            inv_found_pivot_bucket h hget hcp hcn hpiv
          rw [hlast]
          dsimp only
          by_cases hfc : (bucket.split t.max_nodes_per_bucket
              now).1.containsId nid = true
          · rw [if_pos hfc]
            dsimp only
            have hbranch := inv_split_branch t bucket
              ((bucket.split t.max_nodes_per_bucket now).1.try_insert
                t.max_nodes_per_bucket a now)
              (bucket.split t.max_nodes_per_bucket now).2 h hlast hpmem hlt
              (by rw [try_insert_range]; exact split_range_fst bucket _ _)
              (split_range_snd bucket _ _)
            by_cases horder : ((bucket.split t.max_nodes_per_bucket
                now).1.try_insert t.max_nodes_per_bucket a
                now).containsId t.pivot = true
            · rw [if_pos horder]
              exact hbranch.1 horder
            · rw [if_neg horder]
              exact hbranch.2 (Bool.eq_false_iff.mpr horder)
          · rw [if_neg hfc]
            dsimp only
            have hbranch := inv_split_branch t bucket
              (bucket.split t.max_nodes_per_bucket now).1
              ((bucket.split t.max_nodes_per_bucket now).2.try_insert
                t.max_nodes_per_bucket a now) h hlast hpmem hlt
              (split_range_fst bucket _ _)
              (by rw [try_insert_range]; exact split_range_snd bucket _ _)
            by_cases horder : ((bucket.split t.max_nodes_per_bucket
                now).1).containsId t.pivot = true
            · rw [if_pos horder]
              exact hbranch.1 horder
            · rw [if_neg horder]
              exact hbranch.2 (Bool.eq_false_iff.mpr horder)
        · rw [if_neg hcond]
          show InvR t.pivot _
          rw [map_rangeOf_modify _ (fun b => try_insert_range b _ _ _)]
          exact h

theorem inv_on_msg_received {Addr : Type} [DecidableEq Addr]
    (t : Table Addr) (a : AddrId Addr) (kind : Kind) (config : Config)
    (mgr : MsgBuffer.Manager Addr) (buf : MsgBuffer.Buffer Addr) (now : Nat)
    (h : Inv t) : Inv (t.on_msg_received a kind config mgr buf now).1 := by
  unfold Table.on_msg_received
  rcases a.id with _ | nid
  · exact h
  · dsimp only
    by_cases hpiv : nid = t.pivot
    · rw [if_pos hpiv]
      exact h
    · rw [if_neg hpiv]
      rcases hget : t.buckets.get? (t.buckets.findIdx
          (fun b => b.containsId nid)) with _ | bucket
      · simp only [hget]
        exact h
      · simp only [hget]
        by_cases hcond : (bucket.containsId t.pivot &&
            decide (bucket.nodes.length ≥ t.max_nodes_per_bucket)) = true
        · rw [if_pos hcond]
          have hcn : bucket.containsId nid = true :=
            @List.findIdx_of_get?_eq_some _ (fun b => b.containsId nid)
              bucket t.buckets hget
          have hcp : bucket.containsId t.pivot = true :=
            (Bool.and_eq_true _ _ |>.mp hcond).1
          obtain ⟨hlast, hpmem, hlt⟩ :=
            inv_found_pivot_bucket h hget hcp hcn hpiv
          rw [hlast]
          dsimp only
          by_cases hfc : (bucket.split t.max_nodes_per_bucket
              now).1.containsId nid = true
          · rw [if_pos hfc]
            dsimp only
            have hbranch := inv_split_branch t bucket
              ((bucket.split t.max_nodes_per_bucket now).1.on_msg_received
                t.max_nodes_per_bucket a kind config mgr buf now).1
              (bucket.split t.max_nodes_per_bucket now).2 h hlast hpmem hlt
              (by rw [on_msg_received_range]
                  exact split_range_fst bucket _ _)
              (split_range_snd bucket _ _)
            by_cases horder : (((bucket.split t.max_nodes_per_bucket
                now).1.on_msg_received t.max_nodes_per_bucket a kind config
                mgr buf now).1).containsId t.pivot = true
            · rw [if_pos horder]
              exact hbranch.1 horder
            · rw [if_neg horder]
              exact hbranch.2 (Bool.eq_false_iff.mpr horder)
          · rw [if_neg hfc]
            dsimp only
            have hbranch := inv_split_branch t bucket
              (bucket.split t.max_nodes_per_bucket now).1
              ((bucket.split t.max_nodes_per_bucket now).2.on_msg_received
                t.max_nodes_per_bucket a kind config mgr buf now).1 h hlast
              hpmem hlt (split_range_fst bucket _ _)
              (by rw [on_msg_received_range]
                  exact split_range_snd bucket _ _)
            by_cases horder : ((bucket.split t.max_nodes_per_bucket
                now).1).containsId t.pivot = true
            · rw [if_pos horder]
              exact hbranch.1 horder
            · rw [if_neg horder]
              exact hbranch.2 (Bool.eq_false_iff.mpr horder)
        · rw [if_neg hcond]
          show InvR t.pivot _
          rw [map_rangeOf_set t.buckets _ _ bucket hget
            (on_msg_received_range _ _ _ _ _ _ _ _)]
          exact h

theorem inv_on_resp_timeout {Addr : Type} [DecidableEq Addr]
    (t : Table Addr) (a : AddrId Addr) (config : Config)
    (mgr : MsgBuffer.Manager Addr) (buf : MsgBuffer.Buffer Addr) (now : Nat)
    (h : Inv t) : Inv (t.on_resp_timeout a config mgr buf now).1 := by
  unfold Table.on_resp_timeout
  rcases a.id with _ | nid
  · exact h
  · dsimp only
    rcases hget : t.buckets.get? (t.buckets.findIdx
        (fun b => b.containsId nid)) with _ | bucket
    · simp only [hget]
      exact h
    · simp only [hget]
      show InvR t.pivot _
      rw [map_rangeOf_set t.buckets _ _ bucket hget
        (on_resp_timeout_range _ _ _ _ _ _)]
      exact h

theorem inv_on_timeout {Addr : Type} (t : Table Addr) (config : Config)
    (mgr : MsgBuffer.Manager Addr) (buf : MsgBuffer.Buffer Addr)
    (ops : List (LFindNodeOp Addr)) (rand : Bucket Addr → NodeId)
    (now : Nat) (h : Inv t) :
    Inv (t.on_timeout config mgr buf ops rand now).1 := by
  unfold Table.on_timeout
  dsimp only
  have hfold := foldl_keep_fst
    (fun (acc : Table Addr × (MsgBuffer.Manager Addr ×
        MsgBuffer.Buffer Addr × List (LFindNodeOp Addr)))
      (target_id : NodeId) =>
      (acc.1,
        (acc.1.find_node target_id config acc.2.1 acc.2.2.1 acc.2.2.2 []
          now).1,
        (acc.1.find_node target_id config acc.2.1 acc.2.2.1 acc.2.2.2 []
          now).2.1,
        (acc.1.find_node target_id config acc.2.1 acc.2.2.1 acc.2.2.2 []
          now).2.2))
    (fun _ _ => rfl)
  rw [hfold]
  show InvR t.pivot _
  have hmap : (t.buckets.map (fun b =>
      if b.expected_change_deadline ≤ now then
        { b with expected_change_deadline := now + EXPECT_CHANGE_INTERVAL }
      else b)).map rangeOf = t.buckets.map rangeOf := by
    rw [List.map_map]
    apply List.map_congr_left
    intro b _
    show rangeOf _ = rangeOf b
    dsimp only
    split <;> rfl
  rw [hmap]
  exact h

theorem inv_base {Addr : Type} (pivot : NodeId) (max_nodes_per_bucket : Nat)
    (now : Nat) :
    Inv (⟨pivot, [Bucket.new NodeId.min NodeId.max max_nodes_per_bucket now],
      max_nodes_per_bucket⟩ : Table Addr) := by
  have hin : ∀ i : NodeId, InR (NodeId.min, NodeId.max) i := by
    intro i
    constructor
    · show NodeId.min ≤ i
      exact Fin.zero_le i
    · show i ≤ NodeId.max
      rw [Fin.le_def]
      have := i.isLt
      show i.val ≤ idSize - 1
      omega
  refine ⟨?_, ?_, (NodeId.min, NodeId.max), rfl, hin pivot⟩
  · simp [List.Pairwise]
  · intro i
    exact ⟨(NodeId.min, NodeId.max), by simp [rangeOf, Bucket.new], hin i⟩

theorem inv_reachable {Addr : Type} [DecidableEq Addr] {t : Table Addr}
    (h : Reachable t) : Inv t := by
  induction h with
  | base pivot max now => exact inv_base pivot max now
  | tryInsert _ addr_id now ih => exact inv_try_insert _ addr_id now ih
  | onMsgReceived _ addr_id kind config mgr buf now ih =>
    exact inv_on_msg_received _ addr_id kind config mgr buf now ih
  | onRespTimeout _ addr_id config mgr buf now ih =>
    exact inv_on_resp_timeout _ addr_id config mgr buf now ih
  | onTimeout _ config mgr buf ops rand now ih =>
    exact inv_on_timeout _ config mgr buf ops rand now ih

theorem inv_implies_partition {Addr : Type} (t : Table Addr) (h : Inv t) :
    RangesPartition t := by
  obtain ⟨hpw, hcov, -⟩ := h
  constructor
  · rw [List.pairwise_map] at hpw
    exact hpw.imp (fun hd i hbi => hd i hbi)
  · intro i
    obtain ⟨r, hr, hir⟩ := hcov i
    rw [List.mem_map] at hr
    obtain ⟨b, hb, rfl⟩ := hr
    exact ⟨b, hb, hir⟩

end Legacy

/-- Claim C6: for every legacy routing-table state reachable by
construction, receive merges and timeouts, the bucket ranges are pairwise
disjoint and their union is the full id space `[Id::min, Id::max]`; and
`Bucket::split` replaces a bucket with range `[lo, hi]` by two buckets
with ranges `[lo, mid]` and `[mid.next(), hi]` and redistributes every
contained primary and replacement record into the half whose range
contains its id. -/
theorem c6_partition_and_split (Addr : Type) [DecidableEq Addr]
    (t : Legacy.Table Addr) (h : Legacy.Reachable t)
    (b : Legacy.Bucket Addr) (m now : Nat) :
    Legacy.RangesPartition t ∧
    ((b.split m now).1.lo = b.lo ∧
     (b.split m now).1.hi = NodeId.middle b.hi b.lo ∧
     (b.split m now).2.lo = (NodeId.middle b.hi b.lo).next ∧
     (b.split m now).2.hi = b.hi ∧
     (b.split m now).1.nodes = b.nodes.filter (fun n =>
       match n.addr_id.id with
       | some i => decide (b.lo ≤ i) && decide (i ≤ NodeId.middle b.hi b.lo)
       | none => false) ∧
     (b.split m now).2.nodes = b.nodes.filter (fun n =>
       !(match n.addr_id.id with
         | some i => decide (b.lo ≤ i) &&
             decide (i ≤ NodeId.middle b.hi b.lo)
         | none => false)) ∧
     (b.split m now).1.replacement_nodes = b.replacement_nodes.filter
       (fun n =>
         match n.addr_id.id with
         | some i => decide (b.lo ≤ i) &&
             decide (i ≤ NodeId.middle b.hi b.lo)
         | none => false) ∧
     (b.split m now).2.replacement_nodes = b.replacement_nodes.filter
       (fun n =>
         !(match n.addr_id.id with
           | some i => decide (b.lo ≤ i) &&
               decide (i ≤ NodeId.middle b.hi b.lo)
           | none => false))) :=
  ⟨Legacy.inv_implies_partition t (Legacy.inv_reachable h),
   rfl, rfl, rfl, rfl, rfl, rfl, rfl, rfl⟩

/-- Witness for claim C6: the table reached by constructing around pivot 0
and inserting one contact satisfies the partition, and the split
characterization holds at a concrete empty bucket. -/
theorem c6_witness :
    Legacy.RangesPartition (Legacy.Table.try_insert
      (⟨⟨0, idSize_pos⟩, [Legacy.Bucket.new NodeId.min NodeId.max 8 0], 8⟩ :
        Legacy.Table Nat)
      ⟨1, some ⟨5, by norm_num [idSize, idBits]⟩⟩ 0) ∧
    ((Legacy.Bucket.split
        (⟨NodeId.min, NodeId.max, [], [], 0⟩ : Legacy.Bucket Nat) 8 0).1.lo = NodeId.min ∧
     (Legacy.Bucket.split
        (⟨NodeId.min, NodeId.max, [], [], 0⟩ : Legacy.Bucket Nat) 8 0).1.hi =
       NodeId.middle NodeId.max NodeId.min ∧
     (Legacy.Bucket.split
        (⟨NodeId.min, NodeId.max, [], [], 0⟩ : Legacy.Bucket Nat) 8 0).2.lo =
       (NodeId.middle NodeId.max NodeId.min).next ∧
     (Legacy.Bucket.split
        (⟨NodeId.min, NodeId.max, [], [], 0⟩ : Legacy.Bucket Nat) 8 0).2.hi = NodeId.max ∧
     (Legacy.Bucket.split
        (⟨NodeId.min, NodeId.max, [], [], 0⟩ : Legacy.Bucket Nat) 8 0).1.nodes = [] ∧
     (Legacy.Bucket.split
        (⟨NodeId.min, NodeId.max, [], [], 0⟩ : Legacy.Bucket Nat) 8 0).2.nodes = [] ∧
     (Legacy.Bucket.split
        (⟨NodeId.min, NodeId.max, [], [], 0⟩ : Legacy.Bucket Nat) 8 0).1.replacement_nodes = [] ∧
     (Legacy.Bucket.split
        (⟨NodeId.min, NodeId.max, [], [], 0⟩ : Legacy.Bucket Nat) 8 0).2.replacement_nodes =
       []) :=
  c6_partition_and_split Nat
    (Legacy.Table.try_insert
      (⟨⟨0, idSize_pos⟩, [Legacy.Bucket.new NodeId.min NodeId.max 8 0], 8⟩ :
        Legacy.Table Nat)
      ⟨1, some ⟨5, by norm_num [idSize, idBits]⟩⟩ 0)
    (Legacy.Reachable.tryInsert
      (Legacy.Reachable.base ⟨0, idSize_pos⟩ 8 0)
      ⟨1, some ⟨5, by norm_num [idSize, idBits]⟩⟩ 0)
    ⟨NodeId.min, NodeId.max, [], [], 0⟩ 8 0

end Sloppy
